import Mathlib

/-!
Verification development for the AI Olly hotel-assistant backend
(`src/server/server.js`).  The file shallowly embeds the answer-resolution
pipeline — text normalisation, the question-shape detectors, the intent
router (pre-router, language-model stage, lexical heuristic), knowledge
filtering and caching, the rate limiter, the price/currency guard and the
`/api/web-ask` handler — as executable Lean definitions, and proves the
specified properties about them.  External collaborators (Airtable, the
language model) are passed in as explicit data/oracles; machine numbers
are modelled with `Int`/`Nat`/`ℚ`.
-/

namespace AiOlly

/-! ## JS string primitives

`server.js` works with JS strings.  We model the character operations the
pipeline actually uses: ASCII lowercasing extended with the Croatian
letters that occur in the embedded keyword tables, the Unicode
letter/digit class restricted to that same alphabet, substring search
(`String.prototype.includes`), and the regex word-boundary (`\b`, with JS
`\w = [A-Za-z0-9_]`). -/

/-- `toLowerCase` restricted to ASCII plus the Croatian letters used by the
keyword tables of `server.js`. -/
def jsToLowerChar (c : Char) : Char :=
  if c == 'Č' then 'č'
  else if c == 'Ć' then 'ć'
  else if c == 'Ž' then 'ž'
  else if c == 'Š' then 'š'
  else if c == 'Đ' then 'đ'
  else c.toLower

def jsToLower (s : String) : String :=
  String.mk (s.data.map jsToLowerChar)

/-- The `[^\p{L}\p{N}]` complement class of `normalizeText`, restricted to
the alphabet appearing in the embedded literals (ASCII letters and digits
and the Croatian letters). -/
def isAlnumChar (c : Char) : Bool :=
  c.isAlpha || c.isDigit ||
    ['č', 'ć', 'ž', 'š', 'đ', 'Č', 'Ć', 'Ž', 'Š', 'Đ'].contains c

/-- Split a character list into the maximal runs of letter/digit
characters (the tokens left after `replace(/[^\p{L}\p{N}]+/gu, ' ')`). -/
def tokensAux : List Char → List Char → List String
  | [], acc => if acc.isEmpty then [] else [String.mk acc.reverse]
  | c :: cs, acc =>
    if isAlnumChar c then tokensAux cs (c :: acc)
    else if acc.isEmpty then tokensAux cs []
    else String.mk acc.reverse :: tokensAux cs []

/-- `tokenize` from `server.js`: normalized text split on whitespace with
empties dropped; equivalently the letter/digit runs of the lowercased
input. -/
def tokenize (s : String) : List String :=
  tokensAux (jsToLower s).data []

/-- `normalizeText` from `server.js`: lowercase, collapse every
non-letter/digit run to a single space, trim. -/
def normalizeText (s : String) : String :=
  String.intercalate " " (tokenize s)

/-- `a.isPrefixEq b`: `b` starts with `a` (exact characters). -/
def isPrefixEq : List Char → List Char → Bool
  | [], _ => true
  | _ :: _, [] => false
  | a :: as, b :: bs => a == b && isPrefixEq as bs

def containsSubAux (needle : List Char) : List Char → Bool
  | [] => needle.isEmpty
  | c :: rest => isPrefixEq needle (c :: rest) || containsSubAux needle rest

/-- `hay.includes(needle)` (JS `String.prototype.includes`). -/
def sInc (hay needle : String) : Bool :=
  containsSubAux needle.data hay.data

/-- Whitespace as trimmed by `String.prototype.trim` (restricted to the
whitespace occurring in this data). -/
def isJsWs (c : Char) : Bool :=
  c == ' ' || c == '\t' || c == '\n' || c == '\r'

/-- `s.trim()`. -/
def jsTrim (s : String) : String :=
  String.mk (((s.data.dropWhile isJsWs).reverse.dropWhile isJsWs).reverse)

/-- `s.slice(0, n)`. -/
def jsSlice (s : String) (n : Nat) : String :=
  String.mk (s.data.take n)

/-- Rational addition in a normal form the kernel evaluates directly;
`qAdd_eq` below shows it is ordinary `ℚ` addition. -/
def qAdd (a b : ℚ) : ℚ :=
  mkRat (a.num * b.den + b.num * a.den) (a.den * b.den)

/-- Rational multiplication in a normal form the kernel evaluates
directly; `qMul_eq` below shows it is ordinary `ℚ` multiplication. -/
def qMul (a b : ℚ) : ℚ :=
  mkRat (a.num * b.num) (a.den * b.den)

/-- Case-insensitive prefix test (for `/i` regexes). -/
def isPrefixCI : List Char → List Char → Bool
  | [], _ => true
  | _ :: _, [] => false
  | a :: as, b :: bs => jsToLowerChar a == jsToLowerChar b && isPrefixCI as bs

/-- JS regex word character `\w = [A-Za-z0-9_]`. -/
def isJsWordChar (c : Char) : Bool :=
  c.isAlpha || c.isDigit || c == '_'

def optIsWord : Option Char → Bool
  | none => false
  | some c => isJsWordChar c

/-- One step of scanning a string for a case-insensitive literal `pat`
bracketed by regex word boundaries: at each position the pattern must
match and `\b` must hold on both sides (a boundary holds between two
positions iff exactly one side is a word character, with "outside the
string" counting as non-word). -/
def wbMatchAux (pat : List Char) : Option Char → List Char → Bool
  | _, [] => false
  | prev, c :: rest =>
    (isPrefixCI pat (c :: rest)
      && (optIsWord prev != optIsWord pat.head?)
      && (optIsWord pat.getLast? != optIsWord ((c :: rest).drop pat.length).head?))
    || wbMatchAux pat (some c) rest

/-- `hay` contains `pat` as a `\b…\b`-delimited case-insensitive match. -/
def wbContains (hay pat : String) : Bool :=
  wbMatchAux pat.data none hay.data

/-! ## Price/currency guard text test -/

/-- `textContainsCurrency` from `server.js`:
`/€|\bEUR\b|\beur\b|\beuro\b|\bper night\b|\b\/night\b/i` (the `EUR` and
`eur` alternatives coincide under `/i`). -/
def textContainsCurrency (s : String) : Bool :=
  s.data.contains '€'
    || wbContains s "eur"
    || wbContains s "euro"
    || wbContains s "per night"
    || wbContains s "/night"

/-! ## Language detection -/

/-- The HR word alternation of `detectLang`
(`/\b(je|li|…)\b/i` over the lowercased question). -/
def hrWordList : List String :=
  ["je", "li", "imate", "gdje", "kada", "radno", "vrijeme", "soba", "sobe",
   "doručak", "recepcija", "parking", "adresa", "broj", "pravila", "kućni",
   "molim", "hvala", "trebam"]

/-- `detectLang` from `server.js` (HR vs EN). -/
def detectLang (question : String) : String :=
  let hasCroChars := question.data.any
    (fun c => ['č', 'ć', 'ž', 'š', 'đ'].contains (jsToLowerChar c))
  let ql := jsToLower question
  let hasHrWords := hrWordList.any (fun w => wbContains ql w)
  if hasCroChars || hasHrWords then "HR" else "EN"

/-! ## Question-shape detectors -/

def isRoomTypesQuestion (question : String) : Bool :=
  let q := normalizeText question
  if sInc q "vrste soba" then true
  else if sInc q "tipovi soba" then true
  else if sInc q "room types" then true
  else if sInc q "types of rooms" then true
  else
    let hasRooms := sInc q "soba" || sInc q "rooms" || sInc q "room"
    let hasTypes := sInc q "vrste" || sInc q "tip" || sInc q "types" || sInc q "type"
    hasRooms && hasTypes

def isRoomAmenitiesQuestion (question : String) : Bool :=
  let q := normalizeText question
  let hasAmen := sInc q "amenities" || sInc q "amenity" || sInc q "sadržaj"
    || sInc q "oprema" || sInc q "what is in the room"
  let hasRoom := sInc q "room" || sInc q "rooms" || sInc q "soba" || sInc q "sobe"
  hasAmen && (hasRoom || sInc q "deluxe" || sInc q "superior"
    || sInc q "standard" || sInc q "comfort")

/-- `isBedTypeQuestion` from `server.js`: word tokens
`king`/`twin`/`bed(s)`/`krevet(i)` or the substring `"king size"` of the
normalized question. -/
def isBedTypeQuestion (question : String) : Bool :=
  let qNorm := normalizeText question
  let toks := tokenize question
  let hasKingWord := toks.contains "king"
  let hasTwinWord := toks.contains "twin"
  let hasKingSize := sInc qNorm "king size"
  let hasBedWord := toks.contains "bed" || toks.contains "beds"
  let hasHrBedWord := toks.contains "krevet" || toks.contains "kreveti"
  hasKingWord || hasTwinWord || hasKingSize || hasBedWord || hasHrBedWord

def isRoomDifferenceQuestion (question : String) : Bool :=
  let q := normalizeText question
  sInc q "razlika" || sInc q "difference" || sInc q "compare"
    || sInc q "usporedi" || sInc q "vs" || sInc q "versus"

def isRoomViewListQuestion (question : String) : Bool :=
  let q := normalizeText question
  let hasView := sInc q "view" || sInc q "pogled"
  let hasWhichRooms := sInc q "which rooms" || sInc q "koje sobe"
    || sInc q "which room" || sInc q "koja soba"
  let hasUnesco := sInc q "unesco" || sInc q "palace" || sInc q "palač"
    || sInc q "peristil" || sInc q "cathedral" || sInc q "katedr"
  (hasView && (hasWhichRooms || hasUnesco)) || (hasWhichRooms && hasUnesco)

def isContactCoreQuestion (question : String) : Bool :=
  let q := normalizeText question
  sInc q "contact"
    || sInc q "kontakt"
    || sInc q "phone"
    || sInc q "telefon"
    || sInc q "tel"
    || sInc q "call"
    || sInc q "email"
    || sInc q "e mail"
    || sInc q "reach"
    || sInc q "reception"
    || sInc q "recepc"
    || sInc q "address"
    || sInc q "adresa"
    || sInc q "google maps"
    || sInc q "maps"
    || sInc q "instagram"
    || sInc q "review"
    || sInc q "check in"
    || sInc q "checkin"
    || sInc q "check out"
    || sInc q "checkout"
    || sInc q "arrival time"
    || sInc q "departure time"

def hotelSpecificKeys : List String :=
  ["recepcija", "reception", "wifi", "wi fi", "internet", "parking",
   "parkiranje", "doručak", "breakfast", "mini bar", "minibar", "check in",
   "check-out", "checkout", "checkin", "policy", "pravila", "pet", "dog",
   "laundry", "dry cleaning", "cleaning", "housekeeping", "room", "rooms",
   "soba", "sobe", "bed", "krevet", "view", "pogled", "floor", "kat",
   "size", "kvadratura", "capacity", "kapacitet", "amenities", "oprema",
   "sadržaj", "transfer", "airport", "zračna luka", "zracna luka", "taxi",
   "uber", "directions", "how to get", "dolazak", "invoice", "račun", "r1",
   "city tax", "tourist tax", "boravišna", "boravisna"]

def isHotelSpecificQuestion (question : String) : Bool :=
  let q := normalizeText question
  hotelSpecificKeys.any (fun k => sInc q k)

def isCityQuestion (question : String) : Bool :=
  let q := normalizeText question
  sInc q "split" || sInc q "dioklecijan" || sInc q "palač"
    || sInc q "palace" || sInc q "peristil"

/-! ## Rate limiter -/

def RL_WINDOW_MS : Int := 20000

def RL_MAX : Nat := 12

structure RLEntry where
  tsStart : Int
  count : Nat
deriving DecidableEq

/-- The `RL` map (`ip -> { tsStart, count }`), as an association list. -/
abbrev RLState := List (String × RLEntry)

def rlLookup : RLState → String → Option RLEntry
  | [], _ => none
  | (k, e) :: rest, key => if k == key then some e else rlLookup rest key

def rlSet : RLState → String → RLEntry → RLState
  | [], key, e => [(key, e)]
  | (k, e0) :: rest, key, e =>
    if k == key then (key, e) :: rest else (k, e0) :: rlSet rest key e

/-- `String(ip || 'unknown')`. -/
def rlKey (ip : String) : String :=
  if ip.isEmpty then "unknown" else ip

/-- `shouldRateLimit` from `server.js`, with the mutation of the global
`RL` map made explicit: returns the limited flag and the updated state. -/
def shouldRateLimit (st : RLState) (ip : String) (now : Int) : Bool × RLState :=
  match rlLookup st (rlKey ip) with
  | none => (false, rlSet st (rlKey ip) ⟨now, 1⟩)
  | some cur =>
    if RL_WINDOW_MS < now - cur.tsStart then (false, rlSet st (rlKey ip) ⟨now, 1⟩)
    else (decide (RL_MAX < cur.count + 1), rlSet st (rlKey ip) ⟨cur.tsStart, cur.count + 1⟩)

def renderWait20s (lang : String) : String :=
  if lang == "EN" then
    "Too many requests in a short time. Please wait 20 seconds and try again."
  else
    "Previše upita u kratkom vremenu. Pričekajte 20 sekundi i pokušajte ponovno."

/-! ## Cache freshness -/

def CACHE_TTL_MS : Int := 60000

/-- `cacheFresh` from `server.js`: `(Date.now() - ts) < CACHE_TTL_MS`. -/
def cacheFresh (ts now : Int) : Bool :=
  decide (now - ts < CACHE_TTL_MS)

/-! ## Record model

`mapServiceRecord` / `mapRoomRecord` resolve Airtable's duck-typed field
aliases into fixed rows; the pipeline only ever sees the mapped rows, so
the embedding takes those rows as inputs.  Service and room rows are
merged into one type tagged by `r.type` exactly as the JS objects flow
through the shared record code; fields a service row does not have are
the JS `undefined`, i.e. the empty/none defaults here.  `kapacitet`,
`kvadratura`, `kat` and `pogled` hold `String(value)` of the raw field
when present. -/

inductive RecType
  | SERVICE
  | ROOM
deriving DecidableEq

def recTypeStr : RecType → String
  | .SERVICE => "SERVICE"
  | .ROOM => "ROOM"

structure Rec where
  rtype : RecType := .SERVICE
  id : String := ""
  naziv : String := ""
  tipSobe : String := ""
  slug : String := ""
  kategorija : List String := []
  opis : String := ""
  radnoVrijeme : String := ""
  kapacitet : Option String := none
  kvadratura : Option String := none
  kat : Option String := none
  pogled : Option String := none
  kreveti : List String := []
  roomAmenities : List String := []
  aiPrompt : String := ""
  aiIntent : List String := []
  aiSource : List String := []
  hotelSlugRaw : List String := []
  active : Bool := true
deriving DecidableEq

structure Hotel where
  id : String := ""
  hotelNaziv : String := ""
  slug : String := ""
  opis : String := ""
  grad : String := ""
  postanskiBroj : String := ""
  adresa : String := ""
  telefon : String := ""
  email : String := ""
  checkIn : String := ""
  checkOut : String := ""
  googleMaps : String := ""
  googleReview : String := ""
  instagram : String := ""
  web : String := ""
  parking : String := ""
  active : Bool := true
deriving DecidableEq

/-- JS string `||`: first operand when non-empty, otherwise the second. -/
def jsOr (a b : String) : String :=
  if a.isEmpty then b else a

/-- `x ?? ''` on an optional string field. -/
def optS (o : Option String) : String :=
  o.getD ""

/-! ## Knowledge retriever: web filtering -/

/-- `valuesToStrings` from `server.js`. -/
def valuesToStrings (v : List String) : List String :=
  (v.map jsTrim).filter (fun s => !s.isEmpty)

/-- `matchesHotelSlug` from `server.js`. -/
def matchesHotelSlug (fieldValue : List String) (hotelSlug : String) : Bool :=
  let target := jsTrim hotelSlug
  (valuesToStrings fieldValue).any (fun x => x == target)

/-- `fieldHasAny` from `server.js`. -/
def fieldHasAny (vals allowed : List String) : Bool :=
  vals.any (fun v => allowed.contains v)

/-- `allowForWeb` from `server.js`: empty `AI_SOURCE` or `'WEB'` present. -/
def allowForWeb (aiSource : List String) : Bool :=
  aiSource.isEmpty || fieldHasAny aiSource ["WEB"]

/-- The row filter shared by `getServicesForHotelWeb` and
`getRoomsForHotelWeb` (applied to the mapped rows). -/
def webRowsFilter (hotelSlug : String) (rows : List Rec) : List Rec :=
  rows.filter (fun r =>
    r.active && matchesHotelSlug r.hotelSlugRaw hotelSlug && allowForWeb r.aiSource)

/-- The uncached core of `getServicesForHotelWeb`. -/
def getServicesForHotelWebPure (hotelSlug : String) (rows : List Rec) : List Rec :=
  webRowsFilter hotelSlug rows

/-- The uncached core of `getRoomsForHotelWeb` (identical filter in the
source). -/
def getRoomsForHotelWebPure (hotelSlug : String) (rows : List Rec) : List Rec :=
  webRowsFilter hotelSlug rows

/-! ## Knowledge retriever: cached getters

The cache entry for a `(type, slug)` key with the `Date.now()` clock and
the upstream Airtable read passed explicitly; the third component of the
result records whether an upstream fetch happened.  (The JS
`Array.isArray(cached.rows)` guard is always true for entries written by
this code.) -/

structure RowsCacheEntry where
  ts : Int
  rows : List Rec
deriving DecidableEq

structure HotelCacheEntry where
  ts : Int
  row : Option Hotel
deriving DecidableEq

/-- `getServicesForHotelWeb` with its `CACHE.servicesByHotel` entry made
explicit. -/
def getServicesForHotelWeb (cache : Option RowsCacheEntry) (now : Int)
    (hotelSlug : String) (upstream : List Rec) :
    List Rec × Option RowsCacheEntry × Bool :=
  match cache with
  | some c =>
    if cacheFresh c.ts now then (c.rows, some c, false)
    else
      let rows := getServicesForHotelWebPure hotelSlug upstream
      (rows, some ⟨now, rows⟩, true)
  | none =>
    let rows := getServicesForHotelWebPure hotelSlug upstream
    (rows, some ⟨now, rows⟩, true)

/-- `getRoomsForHotelWeb` with its `CACHE.roomsByHotel` entry made
explicit. -/
def getRoomsForHotelWeb (cache : Option RowsCacheEntry) (now : Int)
    (hotelSlug : String) (upstream : List Rec) :
    List Rec × Option RowsCacheEntry × Bool :=
  match cache with
  | some c =>
    if cacheFresh c.ts now then (c.rows, some c, false)
    else
      let rows := getRoomsForHotelWebPure hotelSlug upstream
      (rows, some ⟨now, rows⟩, true)
  | none =>
    let rows := getRoomsForHotelWebPure hotelSlug upstream
    (rows, some ⟨now, rows⟩, true)

/-- The `finalRow` computation of `getHotelRecord`: the mapped row only
when present and active. -/
def hotelFinalRow (upstream : Option Hotel) : Option Hotel :=
  match upstream with
  | some h => if h.active then some h else none
  | none => none

/-- `getHotelRecord` with its `CACHE.hotelBySlug` entry made explicit;
`upstream` is the mapped row the Airtable lookups would produce. -/
def getHotelRecord (cache : Option HotelCacheEntry) (now : Int)
    (upstream : Option Hotel) :
    Option Hotel × Option HotelCacheEntry × Bool :=
  match cache with
  | some c =>
    if cacheFresh c.ts now then (c.row, some c, false)
    else
      let row := hotelFinalRow upstream
      (row, some ⟨now, row⟩, true)
  | none =>
    let row := hotelFinalRow upstream
    (row, some ⟨now, row⟩, true)

/-! ## Fallback scoring -/

/-- `buildRecordHaystack` from `server.js` (JS numeric-zero field values
additionally count as falsy there; the claims do not depend on that). -/
def buildRecordHaystack (r : Rec) : String :=
  normalizeText (String.intercalate " "
    [recTypeStr r.rtype,
     r.naziv,
     r.tipSobe,
     r.slug,
     String.intercalate " " r.kategorija,
     String.intercalate " " r.kreveti,
     String.intercalate " " r.roomAmenities,
     optS r.pogled,
     optS r.kat,
     optS r.kvadratura,
     optS r.kapacitet,
     r.opis,
     r.radnoVrijeme,
     String.intercalate " " r.aiIntent])

/-- `inferDomain` from `server.js`. -/
def inferDomain (question : String) : String :=
  let q := normalizeText question
  if sInc q "parking" || sInc q "parkiranje" || sInc q "rampa"
      || sInc q "taxi" || sInc q "uber" then "SERVICE"
  else if sInc q "breakfast" || sInc q "doruč" || sInc q "doruc"
      || sInc q "minibar" || sInc q "mini bar" || sInc q "laundry"
      || sInc q "dry cleaning" then "SERVICE"
  else if sInc q "smoking" || sInc q "non smoking" || sInc q "pušen"
      || sInc q "pusen" then "SERVICE"
  else if sInc q "view" || sInc q "unesco" || sInc q "palace"
      || sInc q "peristil" || sInc q "pogled" || sInc q "cathedral" then "ROOM"
  else if sInc q "amenities" || sInc q "oprema" || sInc q "sadržaj"
      || sInc q "sadrzaj" || sInc q "bed" || sInc q "krevet" then "ROOM"
  else "ANY"

/-! ## Token synonym expansion -/

/-- `tokensWithSynonyms` from `server.js`. -/
def tokensWithSynonyms (question : String) : List String :=
  let t := tokenize question
  let q := normalizeText question
  let toks := tokenize question
  let extra :=
    (if sInc q "check in" || sInc q "checkin" || sInc q "prijava" then
      ["checkin", "arrival", "prijava"] else []) ++
    (if sInc q "check out" || sInc q "checkout" || sInc q "odjava" then
      ["checkout", "departure", "odjava"] else []) ++
    (if sInc q "wifi" || sInc q "wi fi" || sInc q "internet" then
      ["wifi", "internet", "password", "lozinka"] else []) ++
    (if sInc q "parking" || sInc q "parkiranje" || sInc q "rampa" || sInc q "gate" then
      ["parking", "rampa", "gate", "ramp"] else []) ++
    (if sInc q "breakfast" || sInc q "doručak" || sInc q "dorucak" then
      ["breakfast", "doručak", "menu", "vrijeme"] else []) ++
    (if sInc q "amenities" || sInc q "oprema" || sInc q "sadržaj" || sInc q "sadrzaj" then
      ["amenities", "oprema", "sadržaj"] else []) ++
    (if toks.contains "twin" || toks.contains "king" || toks.contains "bed"
        || toks.contains "krevet" || toks.contains "kreveti"
        || sInc (normalizeText question) "king size" then
      ["bed", "krevet", "twin", "king"] else []) ++
    (if sInc q "minibar" || sInc q "mini bar" then
      ["minibar", "mini bar", "price list"] else []) ++
    (if sInc q "transfer" || sInc q "airport" || sInc q "zračna" || sInc q "zracna" then
      ["transfer", "airport", "pickup", "shuttle"] else []) ++
    (if sInc q "laundry" || sInc q "washing" || sInc q "dry cleaning" || sInc q "pras" then
      ["laundry", "washing", "dry cleaning"] else []) ++
    (if sInc q "smoking" || sInc q "smoke" || sInc q "pušen" then
      ["smoking", "non smoking", "smoke"] else []) ++
    (if sInc q "taxi" || sInc q "uber" then
      ["taxi", "uber", "drop off"] else []) ++
    (if sInc q "directions" || sInc q "how to get" || sInc q "upute" || sInc q "dolazak" then
      ["directions", "arrival", "how to get"] else [])
  ((t ++ extra).eraseDups).filter (fun s => !s.isEmpty)

/-! ## Fallback record picking -/

/-- The per-record score of `pickFallbackRecords` (token overlap, exact
name containment boost, inferred-domain boost/penalty). -/
def recFallbackScore (qTokens : List String) (qNorm dom : String) (r : Rec) : ℚ :=
  let hay := buildRecordHaystack r
  let tokScore : ℚ :=
    ((qTokens.filter (fun t => 3 ≤ t.length && sInc hay t)).length : ℚ)
  let nameNorm := normalizeText r.naziv
  let nameBoost : ℚ :=
    if !nameNorm.isEmpty && sInc qNorm nameNorm && decide (4 ≤ nameNorm.length)
    then 3 else 0
  let domBoost : ℚ :=
    qAdd
      (if dom == "ROOM" then
        qAdd (if r.rtype = .ROOM then 1 else 0)
          (if r.rtype = .SERVICE then mkRat (-1) 2 else 0)
       else 0)
      (if dom == "SERVICE" then
        qAdd (if r.rtype = .SERVICE then 1 else 0)
          (if r.rtype = .ROOM then mkRat (-1) 2 else 0)
       else 0)
  qAdd (qAdd tokScore nameBoost) domBoost

def insertDesc (x : Rec × ℚ) : List (Rec × ℚ) → List (Rec × ℚ)
  | [] => [x]
  | y :: ys => if y.2 < x.2 then x :: y :: ys else y :: insertDesc x ys

/-- Sort scored records by descending score (the JS
`sort((a, b) => b.score - a.score)`; order among equal scores is not
load-bearing). -/
def sortByScoreDesc : List (Rec × ℚ) → List (Rec × ℚ)
  | [] => []
  | x :: xs => insertDesc x (sortByScoreDesc xs)

/-- `pickFallbackRecords` from `server.js`: score all records, sort by
descending score, keep the strictly positive ones, return the top
`limit`. -/
def pickFallbackRecords (question : String) (allRecords : List Rec)
    (limit : Nat) : List Rec :=
  if (tokensWithSynonyms question).isEmpty then []
  else
    ((((sortByScoreDesc (allRecords.map (fun r =>
        (r, recFallbackScore (tokensWithSynonyms question) (normalizeText question)
          (inferDomain question) r)))).filter
      (fun x => 0 < x.2)).take limit).map (fun x => x.1))

/-! ## fetchKnowledgeRows -/

structure Knowledge where
  hotelRec : Option Hotel
  services : List Rec
  rooms : List Rec
  matched : List Rec
  fallback : List Rec
  all : List Rec
deriving DecidableEq

/-- The `matched` set of `fetchKnowledgeRows`: records of the union whose
`AI_INTENT` set contains the chosen intent (empty for an absent intent). -/
def knowledgeMatched (services rooms : List Rec) (intent : Option String) :
    List Rec :=
  match intent with
  | some i => (services ++ rooms).filter (fun r => r.aiIntent.contains i)
  | none => []

/-- `fetchKnowledgeRows` from `server.js`, over the (cached) hotel row and
web-filtered service/room rows. -/
def fetchKnowledgeRows (hotelRec : Option Hotel) (services rooms : List Rec)
    (intent : Option String) (question : String) : Knowledge :=
  ⟨hotelRec, services, rooms, knowledgeMatched services rooms intent,
   if (knowledgeMatched services rooms intent).isEmpty
   then pickFallbackRecords question (services ++ rooms) 3 else [],
   services ++ rooms⟩

/-! ## Intent router -/

/-- A mapped `AI_INTENT_PATTERNS` row, as produced by
`getIntentPatternsForWeb` (which keeps only rows with a non-empty intent,
`Active` and the `WEB` channel). -/
structure IntentPattern where
  intent : String := ""
  phrases : String := ""
  outputScope : String := ""
  servicesLink : List String := []
  roomsLink : List String := []
deriving DecidableEq

/-- The router's result record `{ intent, confidence, outputScope, note }`. -/
structure IntentPick where
  intent : Option String := none
  confidence : ℚ := 0
  outputScope : String := "General"
  note : String := ""
deriving DecidableEq

/-- The JSON object parsed from the language model's classification
response; `none` fields are absent keys. -/
structure ParsedLM where
  intent : Option String := none
  confidence : Option ℚ := none
  outputScope : Option String := none
  note : Option String := none
deriving DecidableEq

/-- The haystack `normalizeText(`${p.intent} ${p.phrases}`)` shared by
`findPatternByKeyword` and `heuristicChooseIntent`. -/
def patternHaystack (p : IntentPattern) : String :=
  normalizeText (p.intent ++ " " ++ p.phrases)

/-- The normalized, non-empty keyword list of `findPatternByKeyword`. -/
def normKeys (keywords : List String) : List String :=
  (keywords.map normalizeText).filter (fun k => !k.isEmpty)

/-- The per-pattern score of `findPatternByKeyword`: how many keys of
length ≥ 3 occur in the pattern's haystack. -/
def patternKeyScore (keys : List String) (p : IntentPattern) : Nat :=
  (keys.filter (fun k => 3 ≤ k.length && sInc (patternHaystack p) k)).length

/-- One best-of step of `findPatternByKeyword` (strict improvement). -/
def fpkStep (keys : List String) (acc : Option IntentPattern × Nat)
    (p : IntentPattern) : Option IntentPattern × Nat :=
  let s := patternKeyScore keys p
  if acc.2 < s then (some p, s) else acc

/-- `findPatternByKeyword` from `server.js`: best-of over the patterns by
`patternKeyScore`, accepted at score ≥ 1. -/
def findPatternByKeyword (patterns : List IntentPattern)
    (keywords : List String) : Option IntentPattern :=
  if (normKeys keywords).isEmpty then none
  else if 1 ≤ (patterns.foldl (fpkStep (normKeys keywords))
      ((none : Option IntentPattern), 0)).2 then
    (patterns.foldl (fpkStep (normKeys keywords))
      ((none : Option IntentPattern), 0)).1
  else none

/-- One pre-router domain bucket. -/
structure Bucket where
  keys : List String
  note : String
deriving DecidableEq

/-- The fixed bucket table of `preRouteIntent`. -/
def preRouterBuckets : List Bucket :=
  [⟨["parking", "parkiranje", "rampa", "gate", "drop off", "drop-off"], "pre_router_parking"⟩,
   ⟨["smoking", "non smoking", "smoke", "pušenje", "pusenje"], "pre_router_smoking"⟩,
   ⟨["minibar", "mini bar", "price list", "cjenik"], "pre_router_minibar"⟩,
   ⟨["breakfast", "doručak", "dorucak", "buffet", "a la carte", "kids breakfast"], "pre_router_breakfast"⟩,
   ⟨["transfer", "airport", "zračna luka", "zracna luka", "pickup", "shuttle"], "pre_router_transfer"⟩,
   ⟨["taxi", "uber"], "pre_router_taxi_uber"⟩,
   ⟨["directions", "how to get", "upute", "dolazak", "arrival guidance"], "pre_router_directions"⟩,
   ⟨["city tax", "tourist tax", "boravišna", "boravisna", "tax"], "pre_router_city_tax"⟩,
   ⟨["r1", "invoice", "račun", "racun"], "pre_router_invoice"⟩]

/-- `b.keys.some(k => q.includes(normalizeText(k)))` for the normalized
question `qNorm`. -/
def bucketHit (qNorm : String) (b : Bucket) : Bool :=
  b.keys.any (fun k => sInc qNorm (normalizeText k))

/-- The bucket loop of `preRouteIntent`: first bucket that both hits the
question and resolves (via `findPatternByKeyword`) to a pattern with a
non-empty intent wins, with confidence pinned to 0.92. -/
def preRouteGo (qNorm : String) (patterns : List IntentPattern) :
    List Bucket → Option IntentPick
  | [] => none
  | b :: bs =>
    if bucketHit qNorm b then
      match findPatternByKeyword patterns b.keys with
      | some p =>
        if p.intent != "" then
          some ⟨some p.intent, mkRat 92 100, jsOr p.outputScope "General", b.note⟩
        else preRouteGo qNorm patterns bs
      | none => preRouteGo qNorm patterns bs
    else preRouteGo qNorm patterns bs

/-- `preRouteIntent` from `server.js`. -/
def preRouteIntent (question : String) (patterns : List IntentPattern) :
    Option IntentPick :=
  preRouteGo (normalizeText question) patterns preRouterBuckets

/-- The running best of `heuristicChooseIntent`. -/
structure HeurBest where
  intent : Option String := none
  score : ℚ := 0
  outputScope : String := "General"
deriving DecidableEq

/-- The per-pattern score of `heuristicChooseIntent`: token overlap with
the pattern haystack plus the 0.25 bonus when the pattern's own intent
name contains the question's first token. -/
def heurScore (qTokens : List String) (p : IntentPattern) : ℚ :=
  qAdd ((qTokens.filter (fun t => 3 ≤ t.length && sInc (patternHaystack p) t)).length : ℚ)
    (if !p.intent.isEmpty && sInc (normalizeText p.intent) (qTokens.headD "")
     then mkRat 1 4 else 0)

/-- One best-of step of `heuristicChooseIntent` (strict improvement). -/
def heurStep (qTokens : List String) (best : HeurBest) (p : IntentPattern) :
    HeurBest :=
  if best.score < heurScore qTokens p then
    ⟨some p.intent, heurScore qTokens p, jsOr p.outputScope "General"⟩
  else best

def heuristicBest (qTokens : List String) (patterns : List IntentPattern) :
    HeurBest :=
  patterns.foldl (heurStep qTokens) ⟨none, 0, "General"⟩

/-- `heuristicChooseIntent` from `server.js`: expanded tokens, best-of
pattern score, accepted at score ≥ 2 with confidence
`min(0.85, 0.55 + 0.05·score)`. -/
def heuristicChooseIntent (question : String) (patterns : List IntentPattern) :
    IntentPick :=
  if (tokensWithSynonyms question).isEmpty then
    ⟨none, 0, "General", "heuristic_no_tokens"⟩
  else if (2 : ℚ) ≤ (heuristicBest (tokensWithSynonyms question) patterns).score then
    ⟨(heuristicBest (tokensWithSynonyms question) patterns).intent,
     min (mkRat 85 100)
       (qAdd (mkRat 55 100)
         (qMul (heuristicBest (tokensWithSynonyms question) patterns).score (mkRat 5 100))),
     (heuristicBest (tokensWithSynonyms question) patterns).outputScope,
     "heuristic_match"⟩
  else ⟨none, 0, "General", "heuristic_no_match"⟩

/-- The trimmed, non-empty intent string parsed from the model response
(`typeof parsed.intent === 'string' && parsed.intent.trim()`). -/
def lmIntentRaw (parsed : ParsedLM) : Option String :=
  match parsed.intent with
  | some s => if !(jsTrim s).isEmpty then some (jsTrim s) else none
  | none => none

/-- The model's intent after the fabricated-label defense: discarded
unless it is verbatim one of the supplied patterns' intents. -/
def lmValidatedIntent (patterns : List IntentPattern) (parsed : ParsedLM) :
    Option String :=
  match lmIntentRaw parsed with
  | some s => if (patterns.map (fun p => p.intent)).contains s then some s else none
  | none => none

/-- The trimmed output scope parsed from the model response, defaulting
to `General`. -/
def lmOutputScope (parsed : ParsedLM) : String :=
  match parsed.outputScope with
  | some s => if !(jsTrim s).isEmpty then jsTrim s else "General"
  | none => "General"

/-- The `{ intent, confidence, outputScope, note }` record `chooseIntent`
returns from the language-model stage. -/
def lmPick (patterns : List IntentPattern) (parsed : ParsedLM) : IntentPick :=
  ⟨lmValidatedIntent patterns parsed, parsed.confidence.getD 0,
   lmOutputScope parsed, parsed.note.getD ""⟩

/-- `chooseIntent` from `server.js`.  The language-model classification
call is the `lm` oracle: `none` models the call throwing, `some parsed`
the parsed JSON response.  The second component records whether the
language model was invoked. -/
def chooseIntent (question : String) (patterns : List IntentPattern)
    (lm : Option ParsedLM) : IntentPick × Bool :=
  if patterns.isEmpty then (⟨none, 0, "General", "no_patterns"⟩, false)
  else
    match preRouteIntent question patterns with
    | some pre => (pre, false)
    | none =>
      match lm with
      | none =>
        if (heuristicChooseIntent question patterns).intent.isSome then
          (heuristicChooseIntent question patterns, true)
        else (⟨none, 0, "General", "intent_router_failed"⟩, true)
      | some parsed =>
        if (lmValidatedIntent patterns parsed).isNone
            || decide (parsed.confidence.getD 0 < mkRat 35 100) then
          if (heuristicChooseIntent question patterns).intent.isSome then
            (heuristicChooseIntent question patterns, true)
          else (lmPick patterns parsed, true)
        else (lmPick patterns parsed, true)

/-! ## Deterministic renderers -/

def renderNoInfo (lang : String) : String :=
  if lang == "EN" then
    "I don’t have that information in the system. Please contact reception for exact details."
  else
    "Nemam taj podatak u sustavu. Molim kontaktirajte recepciju za točne informacije."

/-- `renderRoomTypesAnswer` from `server.js`. -/
def renderRoomTypesAnswer (rooms : List Rec) (lang : String) : String :=
  if rooms.isEmpty then
    if lang == "EN" then
      "I don’t have room-type details in the system right now. Please contact reception for exact information."
    else
      "Nemam podatke o vrstama soba u sustavu. Molim kontaktirajte recepciju za točne informacije."
  else
    let lines := (rooms.map (fun r =>
      let name := jsOr r.naziv (jsOr r.tipSobe (jsOr r.slug "Room"))
      let tip := if !r.tipSobe.isEmpty then " — " ++ r.tipSobe else ""
      let view := if !(optS r.pogled).isEmpty then " — view: " ++ optS r.pogled else ""
      let beds :=
        if !r.kreveti.isEmpty then " — beds: " ++ String.intercalate ", " r.kreveti
        else ""
      "• " ++ name ++ tip ++ view ++ beds)).take 20
    if lang == "EN" then
      "These are the room types listed:\n" ++ String.intercalate "\n" lines
    else
      "Imamo sljedeće vrste soba:\n" ++ String.intercalate "\n" lines

/-- `renderHotelCoreAnswer` from `server.js`. -/
def renderHotelCoreAnswer (hotelRec : Option Hotel) (lang : String) : String :=
  match hotelRec with
  | none => renderNoInfo lang
  | some h =>
    let parts :=
      (if !h.hotelNaziv.isEmpty then [h.hotelNaziv] else []) ++
      (if !h.adresa.isEmpty then
        [(if lang == "EN" then "Address: " else "Adresa: ") ++ h.adresa] else []) ++
      (if !h.telefon.isEmpty then
        [(if lang == "EN" then "Reception phone: " else "Telefon (recepcija): ") ++ h.telefon] else []) ++
      (if !h.email.isEmpty then ["Email: " ++ h.email] else []) ++
      (if !h.checkIn.isEmpty then ["Check-in: " ++ h.checkIn] else []) ++
      (if !h.checkOut.isEmpty then ["Check-out: " ++ h.checkOut] else []) ++
      (if !h.googleMaps.isEmpty then ["Google Maps: " ++ h.googleMaps] else []) ++
      (if !h.googleReview.isEmpty then
        [(if lang == "EN" then "Google Reviews: " else "Google recenzije: ") ++ h.googleReview] else []) ++
      (if !h.instagram.isEmpty then ["Instagram: " ++ h.instagram] else []) ++
      (if !h.web.isEmpty then
        [(if lang == "EN" then "Website: " else "Web: ") ++ h.web] else [])
    if parts.isEmpty then renderNoInfo lang
    else String.intercalate "\n" parts

/-- `renderRoomsByViewAnswer` from `server.js`. -/
def renderRoomsByViewAnswer (rooms : List Rec) (question lang : String) : String :=
  let q := normalizeText question
  let needles0 :=
    (if sInc q "unesco" then ["unesco"] else []) ++
    (if sInc q "palace" || sInc q "palač" then ["palace", "pala"] else []) ++
    (if sInc q "peristil" then ["peristil"] else []) ++
    (if sInc q "cathedral" || sInc q "katedr" then ["cathedral", "kated"] else [])
  let viewNeedles := if needles0.isEmpty then ["view", "pogled"] else needles0
  let matched := rooms.filter (fun r =>
    let v := normalizeText (optS r.pogled)
    !v.isEmpty && viewNeedles.any (fun n => sInc v (normalizeText n)))
  if matched.isEmpty then
    if lang == "EN" then
      "I don’t have a complete list of rooms with that view in the system. Please contact reception for confirmation."
    else
      "Nemam kompletan popis soba s traženim pogledom u sustavu. Molim kontaktirajte recepciju za potvrdu."
  else
    let lines := (matched.take 20).map (fun r =>
      let name := jsOr r.naziv (jsOr r.tipSobe (jsOr r.slug "Room"))
      let view := if !(optS r.pogled).isEmpty then optS r.pogled else "-"
      "• " ++ name ++ " — " ++ view)
    if lang == "EN" then
      "Rooms with the requested view (as listed):\n" ++ String.intercalate "\n" lines
    else
      "Sobe s traženim pogledom (kako je navedeno u sustavu):\n" ++ String.intercalate "\n" lines

/-- `roomMatchScore` from `server.js`. -/
def roomMatchScore (questionNorm : String) (room : Rec) : Nat :=
  let name := normalizeText room.naziv
  let tip := normalizeText room.tipSobe
  let slug := normalizeText room.slug
  let s1 := (if !name.isEmpty && sInc questionNorm name then 5 else 0)
    + (if !tip.isEmpty && sInc questionNorm tip then 4 else 0)
    + (if !slug.isEmpty && sInc questionNorm slug then 3 else 0)
  let kw := ["deluxe", "superior", "standard", "comfort", "ground", "floor"]
  let s2 := (kw.filter (fun w =>
    sInc questionNorm w && (sInc name w || sInc tip w || sInc slug w))).length
  let s3 :=
    (if sInc questionNorm "ground room"
        && (sInc name "ground" || sInc tip "ground" || sInc slug "ground")
     then 1 else 0)
    + (if sInc questionNorm "ground floor"
        && (sInc name "ground" || sInc tip "ground" || sInc slug "ground")
       then 1 else 0)
  s1 + s2 + s3

/-- `findBestRoomMention` from `server.js` (best score, accepted at ≥ 3). -/
def findBestRoomMention (question : String) (rooms : List Rec) : Option Rec :=
  let q := normalizeText question
  let best := rooms.foldl (fun acc r =>
    let s := roomMatchScore q r
    if acc.2 < s then (some r, s) else acc) ((none : Option Rec), 0)
  if 3 ≤ best.2 then best.1 else none

/-- Case-insensitive literal split, as `q.split(new RegExp(sep, 'i'))` for
the metacharacter-free separators used here. -/
def splitOnCIGo : Nat → List Char → List Char → List Char → List (List Char)
  | 0, hay, acc, _ => [acc.reverse ++ hay]
  | _ + 1, [], acc, _ => [acc.reverse]
  | fuel + 1, c :: rest, acc, sep =>
    if !sep.isEmpty && isPrefixCI sep (c :: rest) then
      acc.reverse :: splitOnCIGo fuel ((c :: rest).drop sep.length) [] sep
    else splitOnCIGo fuel rest (c :: acc) sep

def splitOnCI (sep hay : String) : List String :=
  (splitOnCIGo (hay.data.length + 1) hay.data [] sep.data).map String.mk

def splitSeparators : List String :=
  [" vs ", " versus ", " and ", " & ", " u odnosu na ",
   " razlika između ", " razlika izmedu ", " between "]

def splitTwoGo (q lower : String) : List String → String × String
  | [] => (q, "")
  | sep :: rest =>
    if sInc lower (normalizeText sep) then
      match splitOnCI sep q with
      | p0 :: p1 :: _ => (jsTrim p0, jsTrim p1)
      | _ => splitTwoGo q lower rest
    else splitTwoGo q lower rest

/-- `splitIntoTwoRoomQueries` from `server.js`. -/
def splitIntoTwoRoomQueries (question : String) : String × String :=
  splitTwoGo question (normalizeText question) splitSeparators

/-- `renderRoomAmenitiesForRoom` from `server.js`. -/
def renderRoomAmenitiesForRoom (room : Option Rec) (lang : String) : String :=
  let amAll : List String := match room with
    | some r => r.roomAmenities
    | none => []
  let am := amAll.filter (fun s => !s.isEmpty)
  if room.isNone || am.isEmpty then
    if lang == "EN" then
      "I don’t have a full amenities list for that room in the system. Please contact reception for details."
    else
      "Nemam kompletan popis sadržaja/opreme za tu sobu u sustavu. Molim kontaktirajte recepciju za detalje."
  else
    let title := match room with
      | some r => jsOr r.naziv (jsOr r.tipSobe "Room")
      | none => "Room"
    let lines := (am.take 50).map (fun x => "• " ++ x)
    if lang == "EN" then
      "Room amenities for " ++ title ++ ":\n" ++ String.intercalate "\n" lines
    else
      "Sadržaj/oprema sobe (" ++ title ++ "):\n" ++ String.intercalate "\n" lines

/-- First-occurrence deduplication, mirroring JS `Set` insertion order. -/
def dedupAux : List String → List String → List String
  | [], acc => acc.reverse
  | x :: xs, acc =>
    if acc.contains x then dedupAux xs acc else dedupAux xs (x :: acc)

def jsSetDedup (l : List String) : List String :=
  dedupAux l []

/-- `renderRoomAmenitiesGeneral` from `server.js`. -/
def renderRoomAmenitiesGeneral (rooms : List Rec) (lang : String) : String :=
  let allAm := jsSetDedup (rooms.foldr (fun r acc =>
    ((r.roomAmenities.map jsTrim).filter (fun s => !s.isEmpty)) ++ acc) [])
  let list := allAm.take 50
  if list.isEmpty then
    if lang == "EN" then
      "I don’t have a full amenities list in the system. Please contact reception for details."
    else
      "Nemam kompletan popis sadržaja/opreme u sustavu. Molim kontaktirajte recepciju za detalje."
  else
    let lines := list.map (fun x => "• " ++ x)
    if lang == "EN" then
      "Room amenities (as listed):\n" ++ String.intercalate "\n" lines
    else
      "Sadržaj/oprema soba (kako je navedeno u sustavu):\n" ++ String.intercalate "\n" lines

/-- `renderBedTypesAnswer` from `server.js`. -/
def renderBedTypesAnswer (rooms : List Rec) (lang : String) : String :=
  let lines := (rooms.filterMap (fun r =>
    let beds := r.kreveti.filter (fun s => !s.isEmpty)
    if beds.isEmpty then none
    else
      let name := jsOr r.naziv (jsOr r.tipSobe (jsOr r.slug "Room"))
      some ("• " ++ name ++ ": " ++ String.intercalate ", " beds))).take 20
  if lines.isEmpty then
    if lang == "EN" then
      "I don’t have bed-type details in the system. Please contact reception for exact information."
    else
      "Nemam podatke o tipu kreveta u sustavu. Molim kontaktirajte recepciju za točne informacije."
  else
    if lang == "EN" then
      "Bed types (as listed):\n" ++ String.intercalate "\n" lines
    else
      "Tipovi kreveta (kako je navedeno u sustavu):\n" ++ String.intercalate "\n" lines

/-- The six compared fields of `renderRoomDifference`, each as
`(labelHR, labelEN, roomValueToText value)`. -/
def roomDiffFieldVals (r : Rec) : List (String × String × String) :=
  [("Tip sobe", "Room type", jsTrim r.tipSobe),
   ("Kvadratura", "Size (m²)", jsTrim (optS r.kvadratura)),
   ("Kapacitet", "Capacity", jsTrim (optS r.kapacitet)),
   ("Kat", "Floor", jsTrim (optS r.kat)),
   ("Pogled", "View", jsTrim (optS r.pogled)),
   ("Kreveti", "Beds",
    String.intercalate ", " ((r.kreveti.map jsTrim).filter (fun s => !s.isEmpty)))]

/-- `renderRoomDifference` from `server.js`: emits only the fields that
differ between the two resolved rooms. -/
def renderRoomDifference (roomA roomB : Option Rec) (lang : String) : String :=
  match roomA, roomB with
  | some a, some b =>
    let nameA := jsOr a.naziv (jsOr a.tipSobe "Room A")
    let nameB := jsOr b.naziv (jsOr b.tipSobe "Room B")
    let diffs := (List.zip (roomDiffFieldVals a) (roomDiffFieldVals b)).filterMap
      (fun x =>
        let labHR := x.1.1
        let labEN := x.1.2.1
        let va := x.1.2.2
        let vb := x.2.2.2
        if va.isEmpty && vb.isEmpty then none
        else if va == vb then none
        else
          let label := if lang == "EN" then labEN else labHR
          let notListed := if lang == "EN" then "not listed" else "nije navedeno"
          let left := if va.isEmpty then notListed else va
          let right := if vb.isEmpty then notListed else vb
          some ("• " ++ label ++ ": " ++ nameA ++ " → " ++ left ++ " | "
            ++ nameB ++ " → " ++ right))
    if diffs.isEmpty then
      if lang == "EN" then
        "I don’t have enough structured data to compare \"" ++ nameA ++ "\" and \""
          ++ nameB ++ "\". Please contact reception for details."
      else
        "Nemam dovoljno strukturiranih podataka za usporedbu \"" ++ nameA
          ++ "\" i \"" ++ nameB ++ "\". Molim kontaktirajte recepciju za detalje."
    else
      if lang == "EN" then
        "Key differences (" ++ nameA ++ " vs " ++ nameB ++ "):\n"
          ++ String.intercalate "\n" diffs
      else
        "Ključne razlike (" ++ nameA ++ " vs " ++ nameB ++ "):\n"
          ++ String.intercalate "\n" diffs
  | _, _ =>
    if lang == "EN" then
      "I can compare rooms only if both room types are clearly identified. Please specify the two room names."
    else
      "Mogu usporediti sobe samo ako su obje jasno navedene. Molim napišite točno dvije sobe koje želite usporediti."

/-! ## Price hallucination guard -/

/-- `contextContainsCurrency` from `server.js`: scans the hotel's
description/parking/web fields and each record's description, prompt
hint, hours and room detail (or service category) fields. -/
def contextContainsCurrency (hotelRec : Option Hotel) (records : List Rec) : Bool :=
  let hotelParts :=
    match hotelRec with
    | some h => [h.opis, h.parking, h.web]
    | none => []
  let recParts := records.foldr (fun r acc =>
    ([r.opis, r.aiPrompt, r.radnoVrijeme] ++
      (match r.rtype with
       | .ROOM =>
         [optS r.kvadratura, optS r.kapacitet, optS r.kat, optS r.pogled,
          String.intercalate " " r.kreveti,
          String.intercalate " " r.roomAmenities]
       | .SERVICE => [String.intercalate " " r.kategorija])) ++ acc) []
  textContainsCurrency (String.intercalate "\n" (hotelParts ++ recParts))

def renderNoPriceInfo (lang : String) : String :=
  if lang == "EN" then
    "The price is not available in the system. Please contact reception for a quote and availability."
  else
    "Cijena nije dostupna u sustavu. Molim kontaktirajte recepciju za ponudu i dostupnost."

/-- `applyPriceGuard` from `server.js`. -/
def applyPriceGuard (answer lang : String) (hotelRec : Option Hotel)
    (recordsToUse : List Rec) : String :=
  if answer == "" then answer
  else if !textContainsCurrency answer then answer
  else if contextContainsCurrency hotelRec recordsToUse then answer
  else renderNoPriceInfo lang

/-! ## Generator context serialization (`generateAnswer`) -/

/-- `${x || '-'}`. -/
def orDash (s : String) : String :=
  if s.isEmpty then "-" else s

/-- The `# HOTEL CORE` block assembled by `generateAnswer`. -/
def hotelBlock (hotelSlug : String) (hotelRec : Option Hotel) : String :=
  match hotelRec with
  | none => "# HOTEL CORE\n(no hotel record found)"
  | some h =>
    "# HOTEL CORE"
      ++ "\nNaziv: " ++ orDash h.hotelNaziv
      ++ "\nSlug: " ++ jsOr h.slug hotelSlug
      ++ "\nOpis: " ++ orDash h.opis
      ++ "\nAdresa: " ++ orDash h.adresa
      ++ "\nTelefon: " ++ orDash h.telefon
      ++ "\nEmail: " ++ orDash h.email
      ++ "\nWeb: " ++ orDash h.web
      ++ "\nCheck-in: " ++ orDash h.checkIn
      ++ "\nCheck-out: " ++ orDash h.checkOut
      ++ "\nGoogle Maps: " ++ orDash h.googleMaps
      ++ "\nGoogle Review: " ++ orDash h.googleReview
      ++ "\nInstagram: " ++ orDash h.instagram
      ++ "\nParking: " ++ orDash h.parking

/-- The `# RECORD n (ROOM/SERVICE)` block assembled by `generateAnswer`
for the record at index `idx` (0-based; printed 1-based). -/
def recordBlock (idx : Nat) (r : Rec) : String :=
  let aiPromptShort := jsSlice r.aiPrompt 700
  let opisShort := jsSlice r.opis 1600
  match r.rtype with
  | .ROOM =>
    "# RECORD " ++ toString (idx + 1) ++ " (ROOM)"
      ++ "\nNaziv: " ++ orDash r.naziv
      ++ "\nTip sobe: " ++ orDash r.tipSobe
      ++ "\nSlug: " ++ orDash r.slug
      ++ "\nKapacitet (osoba): " ++ r.kapacitet.getD "-"
      ++ "\nKvadratura: " ++ r.kvadratura.getD "-"
      ++ "\nKat: " ++ r.kat.getD "-"
      ++ "\nPogled: " ++ r.pogled.getD "-"
      ++ "\nKreveti: " ++ orDash (String.intercalate ", " r.kreveti)
      ++ "\nRoom Amenities: " ++ orDash (String.intercalate ", " r.roomAmenities)
      ++ "\nOpis: " ++ orDash opisShort
      ++ "\nAI_PROMPT (internal): " ++ orDash aiPromptShort
  | .SERVICE =>
    "# RECORD " ++ toString (idx + 1) ++ " (SERVICE)"
      ++ "\nNaziv: " ++ orDash r.naziv
      ++ "\nKategorija: " ++ orDash (String.intercalate ", " r.kategorija)
      ++ "\nRadno vrijeme: " ++ orDash r.radnoVrijeme
      ++ "\nOpis: " ++ orDash opisShort
      ++ "\nAI_PROMPT (internal): " ++ orDash aiPromptShort

/-- The condition of claim C1 read literally: a currency token occurs
somewhere in the hotel-core block or in one of the record blocks supplied
to the generator (serialized exactly as `generateAnswer` does). -/
def specGeneratorContextHasCurrency (hotelSlug : String)
    (hotelRec : Option Hotel) (records : List Rec) : Bool :=
  textContainsCurrency (hotelBlock hotelSlug hotelRec)
    || (records.enum.map (fun ir => recordBlock ir.1 ir.2)).any textContainsCurrency

/-! ## `/api/web-ask` handler -/

/-- `airtableFindByIds(table, ids, limit)` with the per-id lookup passed
as an oracle: drop falsy ids, de-duplicate, cap at `limit`, silently drop
failed lookups. -/
def airtableFindByIds (byId : String → Option Rec) (ids : List String)
    (limit : Nat) : List Rec :=
  ((jsSetDedup (ids.filter (fun s => !s.isEmpty))).take limit).filterMap byId

/-- Outcome of `generateAnswer`'s OpenAI call. -/
inductive GenRes
  | ok (text : String)
  | rateErr
  | err
deriving DecidableEq

/-- Which branch of the `/api/web-ask` handler produced the response,
with the final answer text. -/
inductive Outcome
  | missingQuestion
  | rateLimited (answer : String)
  | hotelCore (answer : String)
  | roomTypes (answer : String)
  | roomsByView (answer : String)
  | roomAmenities (answer : String)
  | bedTypes (answer : String)
  | roomDifference (answer : String)
  | hardStopNoInfo (answer : String)
  | generated (answer : String)
  | generatedRateLimited (answer : String)
  | serverError
deriving DecidableEq

/-- The external collaborators of one `/api/web-ask` request: the cached
intent patterns, the hotel row and web-filtered service/room rows the
knowledge getters return, the classification-call oracle, the by-id
Airtable lookups for linked records, and the generation-call oracle.
(The output rule only shapes the generation prompt, i.e. the oracle's
input, so it is not modelled separately.) -/
structure AskEnv where
  patterns : List IntentPattern := []
  hotelRec : Option Hotel := none
  services : List Rec := []
  rooms : List Rec := []
  lmClassify : Option ParsedLM := none
  svcById : String → Option Rec := fun _ => none
  roomById : String → Option Rec := fun _ => none
  genResult : GenRes := .ok ""

/-- The result of one handler run: the branch taken, whether the
classification language-model call, the knowledge-source reads and the
generation language-model call happened, and the rate-limiter state. -/
structure WebAskRes where
  outcome : Outcome
  classifyCalled : Bool
  knowledgeCalled : Bool
  generateCalled : Bool
  rl : RLState

/-- The linked-record resolution of the handler (step 6): records linked
from the chosen intent's pattern, filtered for activity, web visibility
and (when the record carries owner slugs at all) hotel ownership. -/
def linkedRecords (env : AskEnv) (hotelSlug : String)
    (intent : Option String) : List Rec :=
  match intent with
  | none => []
  | some i =>
    let p := env.patterns.find? (fun x => x.intent == i)
    let svcIds := (p.map (fun x => x.servicesLink)).getD []
    let roomIds := (p.map (fun x => x.roomsLink)).getD []
    let svcRecs := airtableFindByIds env.svcById svcIds 30
    let roomRecs := airtableFindByIds env.roomById roomIds 30
    let keep := fun (r : Rec) =>
      r.active && allowForWeb r.aiSource
        && ((valuesToStrings r.hotelSlugRaw).isEmpty
            || matchesHotelSlug r.hotelSlugRaw hotelSlug)
    svcRecs.filter keep ++ roomRecs.filter keep

/-- The `/api/web-ask` handler from `server.js`, in the source's branch
order: missing question, rate limit, patterns + intent routing, knowledge
fetch, the six deterministic renderers, linked/matched/fallback record
selection, the hard stop, and guarded generation. -/
def webAsk (env : AskEnv) (rl0 : RLState) (ip : String) (now : Int)
    (question hotelSlug : String) : WebAskRes :=
  let lang := detectLang question
  if question.isEmpty then ⟨.missingQuestion, false, false, false, rl0⟩
  else
    let srl := shouldRateLimit rl0 ip now
    if srl.1 then ⟨.rateLimited (renderWait20s lang), false, false, false, srl.2⟩
    else
      let ic := chooseIntent question env.patterns env.lmClassify
      let k := fetchKnowledgeRows env.hotelRec env.services env.rooms ic.1.intent question
      if isContactCoreQuestion question then
        ⟨.hotelCore (renderHotelCoreAnswer env.hotelRec lang), ic.2, true, false, srl.2⟩
      else if isRoomTypesQuestion question then
        ⟨.roomTypes (renderRoomTypesAnswer k.rooms lang), ic.2, true, false, srl.2⟩
      else if isRoomViewListQuestion question then
        ⟨.roomsByView (renderRoomsByViewAnswer k.rooms question lang), ic.2, true, false, srl.2⟩
      else if isRoomAmenitiesQuestion question then
        let room := findBestRoomMention question k.rooms
        let answer := match room with
          | some r => renderRoomAmenitiesForRoom (some r) lang
          | none => renderRoomAmenitiesGeneral k.rooms lang
        ⟨.roomAmenities answer, ic.2, true, false, srl.2⟩
      else if isBedTypeQuestion question then
        ⟨.bedTypes (renderBedTypesAnswer k.rooms lang), ic.2, true, false, srl.2⟩
      else if isRoomDifferenceQuestion question then
        let parts := splitIntoTwoRoomQueries question
        let roomA := findBestRoomMention parts.1 k.rooms
        let roomB := findBestRoomMention parts.2 k.rooms
        let qn := normalizeText question
        let scored := sortByScoreDesc (k.rooms.map
          (fun r => (r, (roomMatchScore qn r : ℚ))))
        let finalA := match roomA with
          | some r => some r
          | none =>
            match scored.head? with
            | some x => if (3 : ℚ) ≤ x.2 then some x.1 else none
            | none => none
        let finalB := match roomB with
          | some r => some r
          | none =>
            match (scored.drop 1).head? with
            | some x => if (3 : ℚ) ≤ x.2 then some x.1 else none
            | none => none
        ⟨.roomDifference (renderRoomDifference finalA finalB lang), ic.2, true, false, srl.2⟩
      else
        let linked := linkedRecords env hotelSlug ic.1.intent
        let recordsToUse1 := if !linked.isEmpty then linked
          else if !k.matched.isEmpty then k.matched else k.fallback
        let recordsToUse := if recordsToUse1.isEmpty then
          pickFallbackRecords question k.all 3 else recordsToUse1
        if isHotelSpecificQuestion question && recordsToUse.isEmpty
            && env.hotelRec.isNone && !isCityQuestion question then
          ⟨.hardStopNoInfo (renderNoInfo lang), ic.2, true, false, srl.2⟩
        else
          match env.genResult with
          | .rateErr => ⟨.generatedRateLimited (renderWait20s lang), ic.2, true, true, srl.2⟩
          | .err => ⟨.serverError, ic.2, true, true, srl.2⟩
          | .ok text =>
            ⟨.generated (applyPriceGuard text lang env.hotelRec recordsToUse),
             ic.2, true, true, srl.2⟩

/-! ## Sample data for concrete instances -/

/-- An active, slug-owned, channel-empty web service record. -/
def sampleParkingService : Rec :=
  { rtype := .SERVICE, id := "s1", naziv := "Parking",
    hotelSlugRaw := ["antique-split"], aiSource := [] }

/-- A wifi intent pattern. -/
def wifiPattern : IntentPattern :=
  { intent := "wifi_info", phrases := "wifi internet password" }

/-- A breakfast intent pattern. -/
def breakfastPattern : IntentPattern :=
  { intent := "breakfast_info", phrases := "breakfast hours", outputScope := "General" }

/-- An active web service record tagged with the `spa_info` intent. -/
def sampleSpaService : Rec :=
  { rtype := .SERVICE, id := "s2", naziv := "Spa", aiIntent := ["spa_info"],
    hotelSlugRaw := ["antique-split"], aiSource := [] }

/-- A handler environment with one pattern, a model classification
response carrying no fields, and a successful generation. -/
def envHotelQuestion : AskEnv :=
  { patterns := [breakfastPattern], lmClassify := some ⟨none, none, none, none⟩,
    genResult := .ok "x" }

/-! ## Helper lemmas -/

theorem qAdd_eq (a b : ℚ) : qAdd a b = a + b :=
  (Rat.add_def' a b).symm

theorem qMul_eq (a b : ℚ) : qMul a b = a * b := by
  rw [Rat.mul_def]
  unfold qMul
  exact (Rat.normalize_eq_mkRat _).symm

theorem insertDesc_mem {x y : Rec × ℚ} {l : List (Rec × ℚ)}
    (h : y ∈ insertDesc x l) : y = x ∨ y ∈ l := by
  induction l with
  | nil =>
    simp only [insertDesc, List.mem_singleton] at h
    exact Or.inl h
  | cons z zs ih =>
    unfold insertDesc at h
    by_cases hc : z.2 < x.2
    · rw [if_pos hc] at h
      rcases List.mem_cons.mp h with h | h
      · exact Or.inl h
      · exact Or.inr h
    · rw [if_neg hc] at h
      rcases List.mem_cons.mp h with h | h
      · exact Or.inr (h ▸ List.mem_cons_self z zs)
      · rcases ih h with h | h
        · exact Or.inl h
        · exact Or.inr (List.mem_cons_of_mem _ h)

theorem sortByScoreDesc_mem {y : Rec × ℚ} {l : List (Rec × ℚ)}
    (h : y ∈ sortByScoreDesc l) : y ∈ l := by
  induction l with
  | nil => simp [sortByScoreDesc] at h
  | cons z zs ih =>
    unfold sortByScoreDesc at h
    rcases insertDesc_mem h with h | h
    · exact h ▸ List.mem_cons_self _ _
    · exact List.mem_cons_of_mem _ (ih h)

theorem fpkFold_snd_le (keys : List String) (ps : List IntentPattern)
    (acc : Option IntentPattern × Nat) :
    acc.2 ≤ (ps.foldl (fpkStep keys) acc).2 := by
  induction ps generalizing acc with
  | nil => exact le_refl _
  | cons p ps ih =>
    refine le_trans ?_ (ih (fpkStep keys acc p))
    unfold fpkStep
    by_cases h : acc.2 < patternKeyScore keys p
    · rw [if_pos h]; exact le_of_lt h
    · rw [if_neg h]

theorem fpkFold_ge_score (keys : List String) (ps : List IntentPattern)
    (acc : Option IntentPattern × Nat) {p : IntentPattern} (hp : p ∈ ps) :
    patternKeyScore keys p ≤ (ps.foldl (fpkStep keys) acc).2 := by
  induction ps generalizing acc with
  | nil => exact absurd hp (List.not_mem_nil p)
  | cons q qs ih =>
    rcases List.mem_cons.mp hp with h | h
    · subst h
      refine le_trans ?_ (fpkFold_snd_le keys qs (fpkStep keys acc p))
      unfold fpkStep
      by_cases hlt : acc.2 < patternKeyScore keys p
      · rw [if_pos hlt]
      · rw [if_neg hlt]; omega
    · exact ih (fpkStep keys acc q) h

theorem fpkFold_isSome (keys : List String) (ps : List IntentPattern)
    (acc : Option IntentPattern × Nat)
    (hacc : 1 ≤ acc.2 → acc.1.isSome = true)
    (h : 1 ≤ (ps.foldl (fpkStep keys) acc).2) :
    (ps.foldl (fpkStep keys) acc).1.isSome = true := by
  induction ps generalizing acc with
  | nil => exact hacc h
  | cons q qs ih =>
    refine ih (fpkStep keys acc q) ?_ h
    unfold fpkStep
    by_cases hlt : acc.2 < patternKeyScore keys q
    · rw [if_pos hlt]; intro; rfl
    · rw [if_neg hlt]; exact hacc

theorem fpkFold_mem (keys : List String) (ps : List IntentPattern)
    (acc : Option IntentPattern × Nat) :
    (ps.foldl (fpkStep keys) acc).1 = acc.1
      ∨ ∃ p ∈ ps, (ps.foldl (fpkStep keys) acc).1 = some p := by
  induction ps generalizing acc with
  | nil => exact Or.inl rfl
  | cons q qs ih =>
    rw [List.foldl_cons]
    rcases ih (fpkStep keys acc q) with h | h
    · rw [h]
      unfold fpkStep
      by_cases hlt : acc.2 < patternKeyScore keys q
      · rw [if_pos hlt]
        exact Or.inr ⟨q, List.mem_cons_self _ _, rfl⟩
      · rw [if_neg hlt]
        exact Or.inl rfl
    · obtain ⟨p, hp, he⟩ := h
      exact Or.inr ⟨p, List.mem_cons_of_mem _ hp, he⟩

theorem patternKeyScore_nil (p : IntentPattern) : patternKeyScore [] p = 0 := rfl

theorem findPatternByKeyword_isSome {ps : List IntentPattern} {kws : List String}
    (h : ∃ p ∈ ps, 1 ≤ patternKeyScore (normKeys kws) p) :
    (findPatternByKeyword ps kws).isSome = true := by
  obtain ⟨p, hp, hs⟩ := h
  have hkeys : (normKeys kws).isEmpty = false := by
    cases hke : (normKeys kws).isEmpty
    · rfl
    · exfalso
      rw [List.isEmpty_iff.mp hke, patternKeyScore_nil] at hs
      omega
  unfold findPatternByKeyword
  rw [hkeys]
  simp only [Bool.false_eq_true, if_false]
  have h1 : 1 ≤ (ps.foldl (fpkStep (normKeys kws)) (none, 0)).2 :=
    le_trans hs (fpkFold_ge_score (normKeys kws) ps (none, 0) hp)
  rw [if_pos h1]
  exact fpkFold_isSome (normKeys kws) ps (none, 0) (by intro hx; omega) h1

theorem findPatternByKeyword_mem {ps : List IntentPattern} {kws : List String}
    {p : IntentPattern} (h : findPatternByKeyword ps kws = some p) : p ∈ ps := by
  unfold findPatternByKeyword at h
  by_cases hke : (normKeys kws).isEmpty
  · rw [hke] at h; simp at h
  · rw [Bool.not_eq_true] at hke
    rw [hke] at h
    simp only [Bool.false_eq_true, if_false] at h
    by_cases h1 : 1 ≤ (ps.foldl (fpkStep (normKeys kws)) (none, 0)).2
    · rw [if_pos h1] at h
      rcases fpkFold_mem (normKeys kws) ps (none, 0) with hm | hm
      · rw [h] at hm; simp at hm
      · obtain ⟨q, hq, he⟩ := hm
        rw [h] at he
        obtain rfl : p = q := by injection he
        exact hq
    · rw [if_neg h1] at h
      simp at h

theorem preRouteGo_conf {qn : String} {ps : List IntentPattern} {r : IntentPick} :
    ∀ bs, preRouteGo qn ps bs = some r → r.confidence = (92 : ℚ)/100 := by
  have hq : (mkRat 92 100 : ℚ) = (92 : ℚ)/100 := by
    norm_num [Rat.mkRat_eq_div]
  intro bs
  induction bs with
  | nil => intro h; simp [preRouteGo] at h
  | cons b bs ih =>
    intro h
    unfold preRouteGo at h
    by_cases hhit : bucketHit qn b
    · rw [if_pos hhit] at h
      cases hfp : findPatternByKeyword ps b.keys with
      | none => simp only [hfp] at h; exact ih h
      | some p =>
        simp only [hfp] at h
        by_cases hint : (p.intent != "") = true
        · rw [if_pos hint] at h
          obtain rfl : r = ⟨some p.intent, mkRat 92 100, jsOr p.outputScope "General", b.note⟩ := by
            injection h with h; exact h.symm
          exact hq
        · rw [if_neg hint] at h; exact ih h
    · rw [if_neg hhit] at h; exact ih h

theorem preRouteGo_isSome {qn : String} {ps : List IntentPattern}
    (hint : ∀ p ∈ ps, p.intent ≠ "") :
    ∀ bs, (∃ b ∈ bs, bucketHit qn b = true
            ∧ (findPatternByKeyword ps b.keys).isSome = true) →
    (preRouteGo qn ps bs).isSome = true := by
  intro bs
  induction bs with
  | nil => rintro ⟨b, hb, -⟩; exact absurd hb (List.not_mem_nil b)
  | cons b0 bs ih =>
    rintro ⟨b, hb, hhit, hsome⟩
    unfold preRouteGo
    by_cases hh0 : bucketHit qn b0
    · rw [if_pos hh0]
      cases hfp : findPatternByKeyword ps b0.keys with
      | some p =>
        have hpi : p.intent ≠ "" := hint p (findPatternByKeyword_mem hfp)
        have hbne : (p.intent != "") = true := by
          simp [bne_iff_ne, hpi]
        simp only [hfp, hbne, if_true]
        rfl
      | none =>
        rcases List.mem_cons.mp hb with rfl | hbs
        · rw [hfp] at hsome; simp at hsome
        · exact ih ⟨b, hbs, hhit, hsome⟩
    · rw [if_neg hh0]
      rcases List.mem_cons.mp hb with rfl | hbs
      · exact absurd hhit hh0
      · exact ih ⟨b, hbs, hhit, hsome⟩

theorem preRouteGo_intent_mem {qn : String} {ps : List IntentPattern} :
    ∀ bs r, preRouteGo qn ps bs = some r →
      ∃ p ∈ ps, r.intent = some p.intent := by
  intro bs
  induction bs with
  | nil => intro r h; simp [preRouteGo] at h
  | cons b bs ih =>
    intro r h
    unfold preRouteGo at h
    by_cases hhit : bucketHit qn b
    · rw [if_pos hhit] at h
      cases hfp : findPatternByKeyword ps b.keys with
      | none => simp only [hfp] at h; exact ih r h
      | some p =>
        simp only [hfp] at h
        by_cases hint : (p.intent != "") = true
        · rw [if_pos hint] at h
          refine ⟨p, findPatternByKeyword_mem hfp, ?_⟩
          obtain rfl : r = ⟨some p.intent, mkRat 92 100, jsOr p.outputScope "General", b.note⟩ := by
            injection h with h; exact h.symm
          rfl
        · rw [if_neg hint] at h; exact ih r h
    · rw [if_neg hhit] at h; exact ih r h

theorem heurStep_intent (qTokens : List String) (acc : HeurBest) (p : IntentPattern) :
    (heurStep qTokens acc p).intent = acc.intent
      ∨ (heurStep qTokens acc p).intent = some p.intent := by
  unfold heurStep
  by_cases h : acc.score < heurScore qTokens p
  · rw [if_pos h]
    exact Or.inr rfl
  · rw [if_neg h]
    exact Or.inl rfl

theorem heurFold_intent_mem (qTokens : List String) (ps : List IntentPattern)
    (acc : HeurBest) :
    (ps.foldl (heurStep qTokens) acc).intent = acc.intent
      ∨ ∃ p ∈ ps, (ps.foldl (heurStep qTokens) acc).intent = some p.intent := by
  induction ps generalizing acc with
  | nil => exact Or.inl rfl
  | cons q qs ih =>
    rw [List.foldl_cons]
    rcases ih (heurStep qTokens acc q) with h | h
    · rw [h]
      rcases heurStep_intent qTokens acc q with h2 | h2
      · rw [h2]
        exact Or.inl rfl
      · rw [h2]
        exact Or.inr ⟨q, List.mem_cons_self _ _, rfl⟩
    · obtain ⟨p, hp, he⟩ := h
      exact Or.inr ⟨p, List.mem_cons_of_mem _ hp, he⟩

theorem heuristic_intent_cases (q : String) (ps : List IntentPattern) :
    (heuristicChooseIntent q ps).intent = none
      ∨ ∃ p ∈ ps, (heuristicChooseIntent q ps).intent = some p.intent := by
  unfold heuristicChooseIntent
  by_cases he : (tokensWithSynonyms q).isEmpty
  · rw [he]; exact Or.inl rfl
  · rw [Bool.not_eq_true] at he
    rw [he]
    simp only [Bool.false_eq_true, if_false]
    by_cases hs : (2 : ℚ) ≤ (heuristicBest (tokensWithSynonyms q) ps).score
    · rw [if_pos hs]
      rcases heurFold_intent_mem (tokensWithSynonyms q) ps ⟨none, 0, "General"⟩ with h | h
      · exact Or.inl h
      · exact Or.inr h
    · rw [if_neg hs]
      exact Or.inl rfl

/-! ## Claim theorems -/

/-- C2: every record returned by the web getters for a slug is active,
carries the target slug in its flattened owning-slug set, and is
web-visible (empty channel set or the `WEB` marker). -/
theorem C2_surfacingInvariant (hotelSlug : String) (svcRows roomRows : List Rec)
    (r : Rec)
    (h : r ∈ getServicesForHotelWebPure hotelSlug svcRows
         ∨ r ∈ getRoomsForHotelWebPure hotelSlug roomRows) :
    r.active = true
      ∧ jsTrim hotelSlug ∈ valuesToStrings r.hotelSlugRaw
      ∧ (r.aiSource = [] ∨ "WEB" ∈ r.aiSource) := by
  have hf : (r.active && matchesHotelSlug r.hotelSlugRaw hotelSlug
      && allowForWeb r.aiSource) = true := by
    rcases h with h | h
    · exact (List.mem_filter.mp h).2
    · exact (List.mem_filter.mp h).2
  rw [Bool.and_eq_true, Bool.and_eq_true] at hf
  obtain ⟨⟨ha, hm⟩, hw⟩ := hf
  refine ⟨ha, ?_, ?_⟩
  · unfold matchesHotelSlug at hm
    rw [List.any_eq_true] at hm
    obtain ⟨x, hx, hbeq⟩ := hm
    exact (beq_iff_eq.mp hbeq) ▸ hx
  · unfold allowForWeb at hw
    rw [Bool.or_eq_true] at hw
    rcases hw with he | ha2
    · exact Or.inl (List.isEmpty_iff.mp he)
    · unfold fieldHasAny at ha2
      rw [List.any_eq_true] at ha2
      obtain ⟨v, hv, hb⟩ := ha2
      have : v = "WEB" := by
        have := List.elem_iff.mp hb
        simpa using this
      exact Or.inr (this ▸ hv)

/-- C2 witness: a concrete active, slug-owned, channel-empty service
record surfaced for its hotel satisfies the invariant. -/
theorem C2_surfacingInvariant_witness :
    sampleParkingService.active = true
      ∧ jsTrim "antique-split" ∈ valuesToStrings sampleParkingService.hotelSlugRaw
      ∧ (sampleParkingService.aiSource = []
         ∨ "WEB" ∈ sampleParkingService.aiSource) :=
  C2_surfacingInvariant "antique-split" [sampleParkingService] []
    sampleParkingService
    (Or.inl (by
      have h : getServicesForHotelWebPure "antique-split" [sampleParkingService]
          = [sampleParkingService] := by decide
      rw [h]
      exact List.mem_cons_self _ _))

/-- C4: the bed-type detector is claimed to never fire on questions with
a word-boundary `parking` and to use only word-boundary tokens; but on
"what is the parking size" — which has the token `parking` and none of
the bed tokens — it fires, because the `"king size"` phrase check is a
raw substring test and `"parking size"` contains `"king size"`. -/
theorem C4_bedTypeParkingBug :
    (tokenize "what is the parking size").contains "parking" = true
      ∧ (tokenize "what is the parking size").contains "king" = false
      ∧ (tokenize "what is the parking size").contains "twin" = false
      ∧ (tokenize "what is the parking size").contains "bed" = false
      ∧ (tokenize "what is the parking size").contains "beds" = false
      ∧ (tokenize "what is the parking size").contains "krevet" = false
      ∧ (tokenize "what is the parking size").contains "kreveti" = false
      ∧ sInc (normalizeText "what is the parking size") "king size" = true
      ∧ isBedTypeQuestion "what is the parking size" = true := by
  decide

/-- C8: the lexical heuristic accepts the best-scoring pattern only at
score ≥ 2, with confidence `min(0.85, 0.55 + 0.05·score)`; below 2 it
returns no intent with confidence 0. -/
theorem C8_heuristicAcceptance (question : String) (patterns : List IntentPattern) :
    ((tokensWithSynonyms question).isEmpty = false →
      (2 : ℚ) ≤ (heuristicBest (tokensWithSynonyms question) patterns).score →
      heuristicChooseIntent question patterns =
        ⟨(heuristicBest (tokensWithSynonyms question) patterns).intent,
         min ((85 : ℚ)/100)
           ((55 : ℚ)/100
             + (heuristicBest (tokensWithSynonyms question) patterns).score * ((5 : ℚ)/100)),
         (heuristicBest (tokensWithSynonyms question) patterns).outputScope,
         "heuristic_match"⟩)
    ∧ ((heuristicBest (tokensWithSynonyms question) patterns).score < 2 →
      (heuristicChooseIntent question patterns).intent = none
        ∧ (heuristicChooseIntent question patterns).confidence = 0) := by
  constructor
  · intro hne hsc
    unfold heuristicChooseIntent
    rw [hne]
    simp only [Bool.false_eq_true, if_false]
    rw [if_pos hsc]
    have hconf : min (mkRat 85 100)
        (qAdd (mkRat 55 100)
          (qMul (heuristicBest (tokensWithSynonyms question) patterns).score (mkRat 5 100)))
        = min ((85 : ℚ)/100)
            ((55 : ℚ)/100
              + (heuristicBest (tokensWithSynonyms question) patterns).score * ((5 : ℚ)/100)) := by
      rw [qAdd_eq, qMul_eq]
      norm_num [Rat.mkRat_eq_div]
    rw [hconf]
  · intro hlt
    unfold heuristicChooseIntent
    cases hne : (tokensWithSynonyms question).isEmpty
    · simp only [Bool.false_eq_true, if_false]
      rw [if_neg (not_le.mpr hlt)]
      exact ⟨rfl, rfl⟩
    · exact ⟨rfl, rfl⟩

/-- C8 witness: for "wifi internet" against a wifi pattern the heuristic
scores 3.25 and returns confidence `min(0.85, 0.55 + 0.05·3.25) = 0.7125
= 57/80`. -/
theorem C8_heuristicAcceptance_witness :
    (heuristicChooseIntent "wifi internet" [wifiPattern] =
      ⟨(heuristicBest (tokensWithSynonyms "wifi internet") [wifiPattern]).intent,
       min ((85 : ℚ)/100)
         ((55 : ℚ)/100
           + (heuristicBest (tokensWithSynonyms "wifi internet") [wifiPattern]).score
             * ((5 : ℚ)/100)),
       (heuristicBest (tokensWithSynonyms "wifi internet") [wifiPattern]).outputScope,
       "heuristic_match"⟩)
    ∧ (heuristicBest (tokensWithSynonyms "wifi internet") [wifiPattern]).score = mkRat 13 4
    ∧ (heuristicChooseIntent "wifi internet" [wifiPattern]).intent = some "wifi_info"
    ∧ (heuristicChooseIntent "wifi internet" [wifiPattern]).confidence = mkRat 57 80 :=
  ⟨(C8_heuristicAcceptance "wifi internet" [wifiPattern]).1 (by decide) (by decide),
   by decide, by decide, by decide⟩

/-- C9: each knowledge getter (services, rooms, hotel) writes a cache
entry on a fetching call, and a second call within the 60 s TTL of that
write returns the same cached value — also an empty list or an absent
hotel — with no second upstream fetch (the second call's upstream
argument is arbitrary and unused); a cached value is fresh exactly while
`now − writeTime < 60000` ms. -/
theorem C9_cacheIdempotence (t0 t1 : Int) (hotelSlug : String)
    (up1s up1r up2s up2r : List Rec) (up1h up2h : Option Hotel) :
    (cacheFresh t0 t1 = true ↔ t1 - t0 < 60000)
    ∧ (getServicesForHotelWeb none t0 hotelSlug up1s
        = (getServicesForHotelWebPure hotelSlug up1s,
           some ⟨t0, getServicesForHotelWebPure hotelSlug up1s⟩, true))
    ∧ (getRoomsForHotelWeb none t0 hotelSlug up1r
        = (getRoomsForHotelWebPure hotelSlug up1r,
           some ⟨t0, getRoomsForHotelWebPure hotelSlug up1r⟩, true))
    ∧ (getHotelRecord none t0 up1h
        = (hotelFinalRow up1h, some ⟨t0, hotelFinalRow up1h⟩, true))
    ∧ (t1 - t0 < 60000 →
        (getServicesForHotelWeb (some ⟨t0, getServicesForHotelWebPure hotelSlug up1s⟩)
            t1 hotelSlug up2s
          = (getServicesForHotelWebPure hotelSlug up1s,
             some ⟨t0, getServicesForHotelWebPure hotelSlug up1s⟩, false))
        ∧ (getRoomsForHotelWeb (some ⟨t0, getRoomsForHotelWebPure hotelSlug up1r⟩)
            t1 hotelSlug up2r
          = (getRoomsForHotelWebPure hotelSlug up1r,
             some ⟨t0, getRoomsForHotelWebPure hotelSlug up1r⟩, false))
        ∧ (getHotelRecord (some ⟨t0, hotelFinalRow up1h⟩) t1 up2h
          = (hotelFinalRow up1h, some ⟨t0, hotelFinalRow up1h⟩, false))) := by
  refine ⟨?_, rfl, rfl, rfl, ?_⟩
  · unfold cacheFresh CACHE_TTL_MS
    exact decide_eq_true_iff
  · intro hf
    have hc : cacheFresh t0 t1 = true := by
      unfold cacheFresh CACHE_TTL_MS
      exact decide_eq_true hf
    refine ⟨?_, ?_, ?_⟩
    · simp [getServicesForHotelWeb, hc]
    · simp [getRoomsForHotelWeb, hc]
    · simp [getHotelRecord, hc]

/-- C9 witness: the three getters at write time 0 and re-read time 59999
(still fresh) return the first fetch's values — here the empty service and
room lists and the absent hotel — without fetching. -/
theorem C9_cacheIdempotence_witness :
    (cacheFresh 0 59999 = true ↔ (59999 : Int) - 0 < 60000)
    ∧ (getServicesForHotelWeb (some ⟨0, getServicesForHotelWebPure "antique-split" []⟩)
        59999 "antique-split" [sampleParkingService]
      = (getServicesForHotelWebPure "antique-split" [],
         some ⟨0, getServicesForHotelWebPure "antique-split" []⟩, false))
    ∧ (getHotelRecord (some ⟨0, hotelFinalRow none⟩) 59999 (some { slug := "x" })
      = (hotelFinalRow none, some ⟨0, hotelFinalRow none⟩, false)) := by
  have h := C9_cacheIdempotence 0 59999 "antique-split" [] [] [sampleParkingService] []
    none (some { slug := "x" })
  exact ⟨h.1, (h.2.2.2.2 (by decide)).1, (h.2.2.2.2 (by decide)).2.2⟩

/-- C1 counterexample: with hotel address "Euro trg 1" the serialized
hotel-core block supplied to the generator contains the currency token
`euro`, so by the claim the answer "€45/night" must be returned
unchanged; `applyPriceGuard` nevertheless replaces it, because its
context check reads only the hotel description/parking/web fields. -/
theorem C1_priceGuard_counterexample :
    textContainsCurrency "€45/night" = true
      ∧ specGeneratorContextHasCurrency "antique-split"
          (some { adresa := "Euro trg 1" }) [] = true
      ∧ applyPriceGuard "€45/night" "EN" (some { adresa := "Euro trg 1" }) []
          = renderNoPriceInfo "EN"
      ∧ applyPriceGuard "€45/night" "EN" (some { adresa := "Euro trg 1" }) []
          ≠ "€45/night" := by
  decide

/-- C1 (amended): `applyPriceGuard` replaces an answer containing a
currency token by the fixed no-price message exactly when
`contextContainsCurrency` — which scans the hotel's description, parking
and web fields plus each record's description, prompt hint, hours and
room detail fields, not the full serialized generator context — finds no
currency token there; otherwise the answer is returned unchanged. -/
theorem C1_priceGuard (answer lang : String) (hotelRec : Option Hotel)
    (recs : List Rec) :
    (textContainsCurrency answer = true →
      contextContainsCurrency hotelRec recs = false →
      applyPriceGuard answer lang hotelRec recs = renderNoPriceInfo lang)
    ∧ (textContainsCurrency answer = false
        ∨ contextContainsCurrency hotelRec recs = true →
      applyPriceGuard answer lang hotelRec recs = answer) := by
  constructor
  · intro h1 h2
    have hne : (answer == "") = false := by
      cases hae : answer == ""
      · rfl
      · exfalso
        have he : answer = "" := eq_of_beq hae
        rw [he] at h1
        exact absurd h1 (by decide)
    unfold applyPriceGuard
    rw [hne]
    simp only [Bool.false_eq_true, if_false, h1, h2]
    rfl
  · intro h
    unfold applyPriceGuard
    cases hae : answer == ""
    · simp only [Bool.false_eq_true, if_false]
      rcases h with h | h
      · rw [h]
        rfl
      · simp only [h]
        cases textContainsCurrency answer <;> rfl
    · rfl

/-- C1 witness: a guarded answer with an empty context is replaced, and a
currency-free answer passes through unchanged. -/
theorem C1_priceGuard_witness :
    applyPriceGuard "€45/night" "EN" none [] = renderNoPriceInfo "EN"
      ∧ applyPriceGuard "hello" "EN" none [] = "hello" :=
  ⟨(C1_priceGuard "€45/night" "EN" none []).1 (by decide) (by decide),
   (C1_priceGuard "hello" "EN" none []).2 (Or.inl (by decide))⟩

/-- C7: over the hotel's web-visible services and rooms, `matched` is
empty for an absent intent and is exactly the records of the union whose
intent set contains the given intent; `fallback` is non-trivially
computed only when `matched` is empty, every fallback record has a
strictly positive lexical score, and there are at most three of them. -/
theorem C7_fetchKnowledgeShape (hotelSlug question : String)
    (svcRows roomRows : List Rec) (intentOpt : Option String)
    (hotelRec : Option Hotel) :
    ((intentOpt = none →
        (fetchKnowledgeRows hotelRec (getServicesForHotelWebPure hotelSlug svcRows)
          (getRoomsForHotelWebPure hotelSlug roomRows) intentOpt question).matched = []))
    ∧ (∀ i, intentOpt = some i → ∀ r,
        r ∈ (fetchKnowledgeRows hotelRec (getServicesForHotelWebPure hotelSlug svcRows)
              (getRoomsForHotelWebPure hotelSlug roomRows) intentOpt question).matched
        ↔ (r ∈ getServicesForHotelWebPure hotelSlug svcRows
              ++ getRoomsForHotelWebPure hotelSlug roomRows
            ∧ i ∈ r.aiIntent))
    ∧ ((fetchKnowledgeRows hotelRec (getServicesForHotelWebPure hotelSlug svcRows)
          (getRoomsForHotelWebPure hotelSlug roomRows) intentOpt question).matched ≠ [] →
        (fetchKnowledgeRows hotelRec (getServicesForHotelWebPure hotelSlug svcRows)
          (getRoomsForHotelWebPure hotelSlug roomRows) intentOpt question).fallback = [])
    ∧ (∀ r, r ∈ (fetchKnowledgeRows hotelRec (getServicesForHotelWebPure hotelSlug svcRows)
          (getRoomsForHotelWebPure hotelSlug roomRows) intentOpt question).fallback →
        0 < recFallbackScore (tokensWithSynonyms question) (normalizeText question)
              (inferDomain question) r)
    ∧ (fetchKnowledgeRows hotelRec (getServicesForHotelWebPure hotelSlug svcRows)
          (getRoomsForHotelWebPure hotelSlug roomRows) intentOpt question).fallback.length
        ≤ 3 := by
  refine ⟨?_, ?_, ?_, ?_, ?_⟩
  · intro hi
    rw [hi]
    rfl
  · intro i hi r
    rw [hi]
    show r ∈ (getServicesForHotelWebPure hotelSlug svcRows
        ++ getRoomsForHotelWebPure hotelSlug roomRows).filter
          (fun r => r.aiIntent.contains i) ↔ _
    rw [List.mem_filter]
    constructor
    · rintro ⟨hm, hc⟩
      exact ⟨hm, List.elem_iff.mp hc⟩
    · rintro ⟨hm, hc⟩
      exact ⟨hm, List.elem_iff.mpr hc⟩
  · intro hne
    have hm : (knowledgeMatched (getServicesForHotelWebPure hotelSlug svcRows)
        (getRoomsForHotelWebPure hotelSlug roomRows) intentOpt).isEmpty = false := by
      cases hmi : (knowledgeMatched (getServicesForHotelWebPure hotelSlug svcRows)
          (getRoomsForHotelWebPure hotelSlug roomRows) intentOpt).isEmpty
      · rfl
      · exact absurd (List.isEmpty_iff.mp hmi) hne
    show (if (knowledgeMatched (getServicesForHotelWebPure hotelSlug svcRows)
        (getRoomsForHotelWebPure hotelSlug roomRows) intentOpt).isEmpty = true
      then pickFallbackRecords question (getServicesForHotelWebPure hotelSlug svcRows
        ++ getRoomsForHotelWebPure hotelSlug roomRows) 3 else []) = []
    rw [hm]
    simp
  · intro r hr
    have hr2 : r ∈ (if (knowledgeMatched (getServicesForHotelWebPure hotelSlug svcRows)
        (getRoomsForHotelWebPure hotelSlug roomRows) intentOpt).isEmpty = true
      then pickFallbackRecords question (getServicesForHotelWebPure hotelSlug svcRows
        ++ getRoomsForHotelWebPure hotelSlug roomRows) 3 else []) := hr
    by_cases hmi : (knowledgeMatched (getServicesForHotelWebPure hotelSlug svcRows)
        (getRoomsForHotelWebPure hotelSlug roomRows) intentOpt).isEmpty = true
    · rw [if_pos hmi] at hr2
      unfold pickFallbackRecords at hr2
      by_cases he : (tokensWithSynonyms question).isEmpty = true
      · rw [if_pos he] at hr2
        simp at hr2
      · rw [if_neg he] at hr2
        obtain ⟨pair, hpair, hfst⟩ := List.mem_map.mp hr2
        have htake := List.take_subset 3 _ hpair
        have hfil := List.mem_filter.mp htake
        have hsorted := sortByScoreDesc_mem hfil.1
        obtain ⟨a, ha, hpa⟩ := List.mem_map.mp hsorted
        subst hpa
        obtain rfl : a = r := hfst
        exact of_decide_eq_true hfil.2
    · rw [if_neg hmi] at hr2
      simp at hr2
  · show (if (knowledgeMatched (getServicesForHotelWebPure hotelSlug svcRows)
        (getRoomsForHotelWebPure hotelSlug roomRows) intentOpt).isEmpty = true
      then pickFallbackRecords question (getServicesForHotelWebPure hotelSlug svcRows
        ++ getRoomsForHotelWebPure hotelSlug roomRows) 3 else []).length ≤ 3
    by_cases hmi : (knowledgeMatched (getServicesForHotelWebPure hotelSlug svcRows)
        (getRoomsForHotelWebPure hotelSlug roomRows) intentOpt).isEmpty = true
    · rw [if_pos hmi]
      unfold pickFallbackRecords
      by_cases he : (tokensWithSynonyms question).isEmpty = true
      · rw [if_pos he]
        simp
      · rw [if_neg he]
        rw [List.length_map, List.length_take]
        exact min_le_left _ _
    · rw [if_neg hmi]
      simp

/-- C7 witness: for a spa service tagged `spa_info`, `matched` is empty
with no intent, matches exactly on the `spa_info` intent, suppresses the
fallback when `matched` is non-empty, and the fallback set is capped at
three. -/
theorem C7_fetchKnowledgeShape_witness :
    ((fetchKnowledgeRows none (getServicesForHotelWebPure "antique-split" [sampleSpaService])
        (getRoomsForHotelWebPure "antique-split" []) none "wifi").matched = [])
    ∧ (sampleSpaService ∈ (fetchKnowledgeRows none
          (getServicesForHotelWebPure "antique-split" [sampleSpaService])
          (getRoomsForHotelWebPure "antique-split" []) (some "spa_info") "wifi").matched
       ↔ (sampleSpaService ∈ getServicesForHotelWebPure "antique-split" [sampleSpaService]
            ++ getRoomsForHotelWebPure "antique-split" []
          ∧ "spa_info" ∈ sampleSpaService.aiIntent))
    ∧ ((fetchKnowledgeRows none (getServicesForHotelWebPure "antique-split" [sampleSpaService])
        (getRoomsForHotelWebPure "antique-split" []) (some "spa_info") "wifi").fallback = [])
    ∧ (fetchKnowledgeRows none (getServicesForHotelWebPure "antique-split" [sampleSpaService])
        (getRoomsForHotelWebPure "antique-split" []) none "wifi").fallback.length ≤ 3 :=
  ⟨(C7_fetchKnowledgeShape "antique-split" "wifi" [sampleSpaService] [] none none).1 rfl,
   (C7_fetchKnowledgeShape "antique-split" "wifi" [sampleSpaService] [] (some "spa_info")
      none).2.1 "spa_info" rfl sampleSpaService,
   (C7_fetchKnowledgeShape "antique-split" "wifi" [sampleSpaService] [] (some "spa_info")
      none).2.2.1 (by decide),
   (C7_fetchKnowledgeShape "antique-split" "wifi" [sampleSpaService] [] none none).2.2.2.2⟩

/-- C5: whenever the normalized question contains a pre-router bucket
keyword and some supplied pattern matches that bucket's keyword set with
lexical score ≥ 1, the router resolves deterministically through the
pre-router — the language model is not invoked — and the returned
confidence is exactly 0.92. -/
theorem C5_preRouterPrecedence (question : String) (patterns : List IntentPattern)
    (lm : Option ParsedLM)
    (hint : ∀ p ∈ patterns, p.intent ≠ "")
    (hhit : ∃ b ∈ preRouterBuckets, bucketHit (normalizeText question) b = true
              ∧ ∃ p ∈ patterns, 1 ≤ patternKeyScore (normKeys b.keys) p) :
    ∃ r, preRouteIntent question patterns = some r
      ∧ chooseIntent question patterns lm = (r, false)
      ∧ r.confidence = (92 : ℚ)/100 := by
  have hsome : (preRouteIntent question patterns).isSome = true := by
    unfold preRouteIntent
    apply preRouteGo_isSome hint
    obtain ⟨b, hb, hbh, hp⟩ := hhit
    exact ⟨b, hb, hbh, findPatternByKeyword_isSome hp⟩
  obtain ⟨r, hr⟩ := Option.isSome_iff_exists.mp hsome
  have hr' : preRouteGo (normalizeText question) patterns preRouterBuckets = some r := hr
  have hne : patterns.isEmpty = false := by
    obtain ⟨b, hb, hbh, p, hp, hs⟩ := hhit
    cases hpe : patterns.isEmpty
    · rfl
    · rw [List.isEmpty_iff.mp hpe] at hp
      exact absurd hp (List.not_mem_nil p)
  refine ⟨r, hr, ?_, preRouteGo_conf preRouterBuckets hr'⟩
  unfold chooseIntent
  rw [hne]
  simp only [Bool.false_eq_true, if_false, hr]

/-- C5 witness: "is breakfast included" hits the breakfast bucket, the
breakfast pattern scores 1 on its keys, and the router returns it at
confidence 0.92 without a language-model call. -/
theorem C5_preRouterPrecedence_witness :
    ∃ r, preRouteIntent "is breakfast included" [breakfastPattern] = some r
      ∧ chooseIntent "is breakfast included" [breakfastPattern] none = (r, false)
      ∧ r.confidence = (92 : ℚ)/100 :=
  C5_preRouterPrecedence "is breakfast included" [breakfastPattern] none
    (by decide) (by decide)

theorem lmValidatedIntent_cases (patterns : List IntentPattern) (parsed : ParsedLM) :
    lmValidatedIntent patterns parsed = none
      ∨ ∃ p ∈ patterns, lmValidatedIntent patterns parsed = some p.intent := by
  cases hl : lmIntentRaw parsed with
  | none =>
    left
    unfold lmValidatedIntent
    rw [hl]
  | some s =>
    have he : lmValidatedIntent patterns parsed
        = if (patterns.map (fun p => p.intent)).contains s then some s else none := by
      unfold lmValidatedIntent
      rw [hl]
    rw [he]
    by_cases hc : (patterns.map (fun p => p.intent)).contains s = true
    · rw [if_pos hc]
      obtain ⟨p, hp, hpe⟩ := List.mem_map.mp (List.elem_iff.mp hc)
      exact Or.inr ⟨p, hp, by rw [hpe]⟩
    · rw [if_neg hc]
      exact Or.inl rfl

/-- C6 counterexample: the claim requires `{intent: none, confidence: 0,
outputScope: "General"}` when no stage yields an intent, but when the
model responds with a fabricated label at confidence 0.9 and scope
"Rooms", the router discards the label yet returns that confidence and
scope. -/
theorem C6_routerDomain_counterexample :
    (chooseIntent "zzz" [breakfastPattern]
        (some ⟨some "fabricated", some (mkRat 9 10), some "Rooms", none⟩)).1
      = ⟨none, mkRat 9 10, "Rooms", ""⟩
    ∧ (chooseIntent "zzz" [breakfastPattern]
        (some ⟨some "fabricated", some (mkRat 9 10), some "Rooms", none⟩)).1.confidence ≠ 0
    ∧ (chooseIntent "zzz" [breakfastPattern]
        (some ⟨some "fabricated", some (mkRat 9 10), some "Rooms", none⟩)).1.outputScope
      ≠ "General" := by
  decide

/-- C6 (amended): the router's returned intent is always absent or the
intent of a supplied pattern — fabricated labels are discarded — and the
router is a total function that, when the pre-router misses, the model
transport fails and the heuristic yields nothing, returns
`{intent: none, confidence: 0, outputScope: "General"}`; when the model
call succeeds but yields no valid intent and the heuristic fails, the
returned confidence and scope are the model's parsed ones instead. -/
theorem C6_routerDomain (question : String) (patterns : List IntentPattern)
    (lm : Option ParsedLM) :
    ((chooseIntent question patterns lm).1.intent = none
      ∨ ∃ p ∈ patterns, (chooseIntent question patterns lm).1.intent = some p.intent)
    ∧ (patterns ≠ [] → preRouteIntent question patterns = none → lm = none →
        (heuristicChooseIntent question patterns).intent = none →
        (chooseIntent question patterns lm).1
          = ⟨none, 0, "General", "intent_router_failed"⟩) := by
  constructor
  · unfold chooseIntent
    by_cases hpe : patterns.isEmpty = true
    · rw [if_pos hpe]
      exact Or.inl rfl
    · rw [if_neg hpe]
      cases hpre : preRouteIntent question patterns with
      | some pre =>
        obtain ⟨p, hp, he⟩ := preRouteGo_intent_mem preRouterBuckets pre hpre
        exact Or.inr ⟨p, hp, he⟩
      | none =>
        cases lm with
        | none =>
          cases hh : (heuristicChooseIntent question patterns).intent.isSome
          · simp only [hh, Bool.false_eq_true, if_false]
            exact Or.inl trivial
          · simp only [hh, if_true]
            rcases heuristic_intent_cases question patterns with h | h
            · exact Or.inl h
            · exact Or.inr h
        | some parsed =>
          cases hcond : ((lmValidatedIntent patterns parsed).isNone
              || decide (parsed.confidence.getD 0 < mkRat 35 100))
          · simp only [hcond, Bool.false_eq_true, if_false]
            rcases lmValidatedIntent_cases patterns parsed with h | h
            · exact Or.inl h
            · exact Or.inr h
          · simp only [hcond, if_true]
            cases hh : (heuristicChooseIntent question patterns).intent.isSome
            · simp only [hh, Bool.false_eq_true, if_false]
              rcases lmValidatedIntent_cases patterns parsed with h | h
              · exact Or.inl h
              · exact Or.inr h
            · simp only [hh, if_true]
              rcases heuristic_intent_cases question patterns with h | h
              · exact Or.inl h
              · exact Or.inr h
  · intro hpat hpre hlm hh
    subst hlm
    have hpe : patterns.isEmpty = false := by
      cases hq : patterns.isEmpty
      · rfl
      · exact absurd (List.isEmpty_iff.mp hq) hpat
    have hns : (heuristicChooseIntent question patterns).intent.isSome = false := by
      rw [hh]
      rfl
    unfold chooseIntent
    rw [hpe]
    simp only [Bool.false_eq_true, if_false, hpre, hns]

/-- C6 witness: with a non-empty pattern list, a missed pre-router, a
failed model call and a failed heuristic, the router returns the
`{none, 0, General}` result. -/
theorem C6_routerDomain_witness :
    (chooseIntent "zzz" [breakfastPattern] none).1
      = ⟨none, 0, "General", "intent_router_failed"⟩ :=
  (C6_routerDomain "zzz" [breakfastPattern] none).2 (by decide) (by decide) rfl (by decide)

/-- C3 counterexample: after eleven requests at time 0 from the same
address, the twelfth request within the window is NOT answered with the
rate-limit message — it proceeds to the knowledge source and generation
(the counter reaches 12, and the limiter only fires above 12). -/
theorem C3_rateLimit_counterexample :
    ((webAsk { genResult := .ok "hi" }
        ((fun st => (shouldRateLimit st "9.9.9.9" 0).2)^[11] []) "9.9.9.9" 5
        "zzz" "antique-split").outcome = Outcome.generated "hi")
    ∧ ((webAsk { genResult := .ok "hi" }
        ((fun st => (shouldRateLimit st "9.9.9.9" 0).2)^[11] []) "9.9.9.9" 5
        "zzz" "antique-split").outcome ≠ Outcome.rateLimited (renderWait20s "EN"))
    ∧ ((webAsk { genResult := .ok "hi" }
        ((fun st => (shouldRateLimit st "9.9.9.9" 0).2)^[11] []) "9.9.9.9" 5
        "zzz" "antique-split").outcome ≠ Outcome.rateLimited (renderWait20s "HR"))
    ∧ ((webAsk { genResult := .ok "hi" }
        ((fun st => (shouldRateLimit st "9.9.9.9" 0).2)^[11] []) "9.9.9.9" 5
        "zzz" "antique-split").knowledgeCalled = true) := by
  decide

/-- C3 (amended): a request that finds a same-window counter at `c` is
rate-limited iff `c + 1 > 12` — so the thirteenth request in the window,
not the twelfth, is the first one refused — and any such refused request
is answered with the localized wait-20-seconds message with no
knowledge-source read, no classification call and no generation call. -/
theorem C3_rateLimit (env : AskEnv) (rl : RLState) (ip : String) (now t0 : Int)
    (c : Nat) (question hotelSlug : String)
    (hq : question.isEmpty = false)
    (hentry : rlLookup rl (rlKey ip) = some ⟨t0, c⟩)
    (hwin : now - t0 ≤ RL_WINDOW_MS) :
    ((shouldRateLimit rl ip now).1 = decide (RL_MAX < c + 1))
    ∧ (RL_MAX ≤ c →
        (webAsk env rl ip now question hotelSlug).outcome
          = Outcome.rateLimited (renderWait20s (detectLang question))
        ∧ (webAsk env rl ip now question hotelSlug).classifyCalled = false
        ∧ (webAsk env rl ip now question hotelSlug).knowledgeCalled = false
        ∧ (webAsk env rl ip now question hotelSlug).generateCalled = false) := by
  have hsrl : shouldRateLimit rl ip now
      = (decide (RL_MAX < c + 1), rlSet rl (rlKey ip) ⟨t0, c + 1⟩) := by
    unfold shouldRateLimit
    simp only [hentry]
    rw [if_neg (not_lt.mpr hwin)]
  constructor
  · rw [hsrl]
  · intro hc
    have hlim : (shouldRateLimit rl ip now).1 = true := by
      rw [hsrl]
      simp only [decide_eq_true_iff]
      omega
    refine ⟨?_, ?_, ?_, ?_⟩ <;>
      simp only [webAsk, hq, Bool.false_eq_true, if_false, hlim, if_true]

/-- C3 witness: with a same-window entry at count 12, the next (i.e.
thirteenth) request is refused with the wait message and no calls. -/
theorem C3_rateLimit_witness :
    ((shouldRateLimit [("1.2.3.4", ⟨0, 12⟩)] "1.2.3.4" 100).1
      = decide (RL_MAX < 12 + 1))
    ∧ ((webAsk { genResult := .ok "x" } [("1.2.3.4", ⟨0, 12⟩)] "1.2.3.4" 100
          "hello" "antique-split").outcome
        = Outcome.rateLimited (renderWait20s (detectLang "hello"))
      ∧ (webAsk { genResult := .ok "x" } [("1.2.3.4", ⟨0, 12⟩)] "1.2.3.4" 100
          "hello" "antique-split").classifyCalled = false
      ∧ (webAsk { genResult := .ok "x" } [("1.2.3.4", ⟨0, 12⟩)] "1.2.3.4" 100
          "hello" "antique-split").knowledgeCalled = false
      ∧ (webAsk { genResult := .ok "x" } [("1.2.3.4", ⟨0, 12⟩)] "1.2.3.4" 100
          "hello" "antique-split").generateCalled = false) :=
  ⟨(C3_rateLimit { genResult := .ok "x" } [("1.2.3.4", ⟨0, 12⟩)] "1.2.3.4" 100 0 12
      "hello" "antique-split" (by decide) (by decide) (by decide)).1,
   (C3_rateLimit { genResult := .ok "x" } [("1.2.3.4", ⟨0, 12⟩)] "1.2.3.4" 100 0 12
      "hello" "antique-split" (by decide) (by decide) (by decide)).2 (by decide)⟩

/-- C10 counterexample: on the question "hotel" (whose normalized text
contains the substring "tel") the pipeline does return the deterministic
hotel-core rendering, but the language model HAS been called — the
intent-classification call happens before the deterministic branch — so
the claim's "never calling the language model for that question" is
false. -/
theorem C10_contactCore_counterexample :
    ((webAsk envHotelQuestion [] "1.1.1.1" 0 "hotel" "antique-split").outcome
      = Outcome.hotelCore (renderNoInfo "EN"))
    ∧ ((webAsk envHotelQuestion [] "1.1.1.1" 0 "hotel" "antique-split").classifyCalled
      = true) := by
  decide

/-- C10 (amended): the contact-core detector matches by substring
containment, so any question whose normalized text contains "tel" — in
particular one containing "hotel" — makes `isContactCoreQuestion` true,
and the pipeline (when not rate-limited) returns the deterministic
hotel-core rendering, bypassing every other renderer and the
answer-generation language-model call; the intent-classification
language-model call, however, still precedes the deterministic branch. -/
theorem C10_contactCore (env : AskEnv) (rl : RLState) (ip : String) (now : Int)
    (question hotelSlug : String)
    (hq : question.isEmpty = false)
    (hrl : (shouldRateLimit rl ip now).1 = false)
    (htel : sInc (normalizeText question) "tel" = true) :
    isContactCoreQuestion question = true
    ∧ (webAsk env rl ip now question hotelSlug).outcome
        = Outcome.hotelCore (renderHotelCoreAnswer env.hotelRec (detectLang question))
    ∧ (webAsk env rl ip now question hotelSlug).generateCalled = false := by
  have hcc : isContactCoreQuestion question = true := by
    unfold isContactCoreQuestion
    simp [htel]
  refine ⟨hcc, ?_, ?_⟩ <;>
    simp only [webAsk, hq, Bool.false_eq_true, if_false, hrl, hcc, if_true]

/-- C10 witness: the question "hotel" triggers the contact-core branch
and skips generation. -/
theorem C10_contactCore_witness :
    isContactCoreQuestion "hotel" = true
    ∧ (webAsk envHotelQuestion [] "1.1.1.1" 0 "hotel" "antique-split").outcome
      = Outcome.hotelCore (renderHotelCoreAnswer envHotelQuestion.hotelRec
          (detectLang "hotel"))
    ∧ (webAsk envHotelQuestion [] "1.1.1.1" 0 "hotel" "antique-split").generateCalled
      = false :=
  C10_contactCore envHotelQuestion [] "1.1.1.1" 0 "hotel" "antique-split"
    (by decide) (by decide) (by decide)

end AiOlly